import Mathlib

/-!
# Kafka client wrapper: shallow embedding and contract proofs

Embedding of `service/pkg/kafka` (`kafka.go`, `config.go`, `consumer.go`,
`producer.go`), followed by the error type of `service/pkg/errors` and the URL
handling of `service/pkg/httpclient`.

Conventions of the embedding:

* a Go `error` value is a `GoError`; a Go result of type `error` is an
  `Option GoError`, with `none` for `nil`;
* `time.Duration`, `int` and `int64` are `Int`;
* `[]byte` is `Bytes`; a Go `string` that the code only converts to and from
  `[]byte` (header values) is modelled by its bytes, so that both conversions
  keep the content unchanged, as they do in Go;
* `map[string]struct{}` is a list of keys used as a set, `map[string]string`
  an association list with one entry per key;
* the broker driver (`kafka-go`), the clock, the caller's context, the handler
  callback and the tasks calling `Pause`/`Resume` concurrently are the
  environment: their answers are given to the model as scripts, and every call
  the code makes to them is recorded as an event;
* calls to the logger do not influence control flow and are left out.
-/

namespace Kafka

/-! ## Errors -/

/-- Go error values as far as the package distinguishes them: the sentinels
`io.EOF`, `context.Canceled`, `context.DeadlineExceeded`, any other leaf error,
and an error wrapping another one with `%w`. -/
inductive GoError where
  | eof : GoError
  | canceled : GoError
  | deadlineExceeded : GoError
  | leaf (text : String) : GoError
  | wrap (text : String) (inner : GoError) : GoError
deriving DecidableEq, Repr

/-- Go `errors.Is(err, target)`: `err` or an error in its `Unwrap` chain equals `target`. -/
def GoError.is : GoError → GoError → Bool
  | GoError.wrap text inner, target =>
      decide (GoError.wrap text inner = target) || GoError.is inner target
  | e, target => decide (e = target)

/-! ## Data model (`kafka.go`, `config.go`) -/

/-- Go `[]byte`. -/
abbrev Bytes := List UInt8

/-- Go `int64` wrap-around of an integer result. -/
def wrapInt64 (x : Int) : Int := (x + 2 ^ 63) % 2 ^ 64 - 2 ^ 63

/-- Struct `Config` of `config.go`. -/
structure Config where
  Brokers : List String
  SecurityProtocol : String
  SASLMechanism : String
  SASLUsername : String
  SASLPassword : String
  ClientID : String
  ConsumerGroupID : String
  ConsumerTopics : List String
  ProducerTopics : List String
  Properties : List (String × String)
  ConnectionTimeout : Int
  SessionTimeout : Int
deriving DecidableEq, Repr

/-- Struct `Options` of `kafka.go`. -/
structure Options where
  ConnectTimeout : Int
  SessionTimeout : Int
  ReconnectBackoff : Int
  MaxReconnectRetry : Int
  Acks : Int
  RetryMax : Int
  BatchSize : Int
  LingerMS : Int
  CompressionType : String
  MaxMessageBytes : Int
  EnableIdempotent : Bool
  GroupID : String
  AutoOffsetReset : String
  EnableAutoCommit : Bool
  AutoCommitInterval : Int
  MaxPollIntervalMS : Int
  FetchMaxWaitMS : Int
  MaxPartitionFetchBytes : Int
deriving DecidableEq, Repr

/-- Struct `Message` of `kafka.go`. -/
structure Message where
  Topic : String
  Key : Bytes
  Value : Bytes
  Headers : List (String × Bytes)
  Partition : Int
  Offset : Int
  Timestamp : Int
deriving DecidableEq, Repr

/-! ## Driver types (`kafka-go`) -/

/-- Driver type `kafka.Header`. -/
structure Header where
  Key : String
  Value : Bytes
deriving DecidableEq, Repr

/-- Driver type `kafka.Message`, with the fields the package reads or writes. -/
structure KafkaMessage where
  Topic : String
  Partition : Int
  Offset : Int
  Key : Bytes
  Value : Bytes
  Headers : List Header
  Time : Int
deriving DecidableEq, Repr

/-- The two SCRAM hash algorithms of the driver. -/
inductive ScramAlgorithm where
  | SHA256 : ScramAlgorithm
  | SHA512 : ScramAlgorithm
deriving DecidableEq, Repr

/-- Driver type `sasl.Mechanism`. -/
inductive Mechanism where
  | plain (username password : String) : Mechanism
  | scram (algo : ScramAlgorithm) (username password : String) : Mechanism
deriving DecidableEq, Repr

/-- Driver type `kafka.Dialer`; the code sets `SASLMechanism` and leaves `TLS` nil. -/
structure Dialer where
  SASLMechanism : Mechanism
deriving DecidableEq, Repr

/-- Start offsets `kafka.FirstOffset` and `kafka.LastOffset`. -/
inductive StartOffset where
  | FirstOffset : StartOffset
  | LastOffset : StartOffset
deriving DecidableEq, Repr

/-- Driver type `kafka.ReaderConfig`, with the fields `setup` fills from the
consumer's configuration. -/
structure ReaderConfig where
  Brokers : List String
  GroupID : String
  Topic : String
  MaxBytes : Int
  MaxWait : Int
  ReadBackoffMin : Int
  ReadBackoffMax : Int
  CommitInterval : Int
  StartOffset : StartOffset
  SessionTimeout : Int
  RebalanceTimeout : Int
  Dialer : Option Dialer
deriving DecidableEq, Repr

/-- A `*kafka.Reader` made by `kafka.NewReader` from a configuration. -/
structure Reader where
  config : ReaderConfig
deriving DecidableEq, Repr

/-- Driver type `kafka.WriterConfig`, with the fields `setup` fills. -/
structure WriterConfig where
  Brokers : List String
  BatchSize : Int
  BatchBytes : Int
  BatchTimeout : Int
  RequiredAcks : Int
  MaxAttempts : Int
  Dialer : Option Dialer
deriving DecidableEq, Repr

/-- A `*kafka.Writer`: the configuration it was made from and whether the
driver has closed it. The producer holds the only pointer to it, so the state of
the driver object is kept with the pointer. -/
structure Writer where
  config : WriterConfig
  closed : Bool
deriving DecidableEq, Repr

/-- Driver function `kafka.NewWriter`: a new, open writer. -/
def NewWriter (config : WriterConfig) : Writer :=
  { config := config, closed := false }

/-- The SASL part shared by both `setup` functions: `none` when the security
protocol is empty or `plaintext`, otherwise the dialer for the configured
mechanism, or the configuration error. `scramErr` is what the driver's
`scram.Mechanism` returns as error for a username and password. -/
def saslDialer (scramErr : String → String → Option GoError) (config : Config) :
    Except GoError (Option Dialer) :=
  if config.SecurityProtocol ≠ "" ∧ config.SecurityProtocol ≠ "plaintext" then
    if config.SASLMechanism = "plain" then
      Except.ok (some ⟨Mechanism.plain config.SASLUsername config.SASLPassword⟩)
    else if config.SASLMechanism = "scram-sha-256" then
      match scramErr config.SASLUsername config.SASLPassword with
      | some err => Except.error (GoError.wrap "配置SASL SCRAM-SHA-256认证失败" err)
      | none => Except.ok (some ⟨Mechanism.scram ScramAlgorithm.SHA256
          config.SASLUsername config.SASLPassword⟩)
    else if config.SASLMechanism = "scram-sha-512" then
      match scramErr config.SASLUsername config.SASLPassword with
      | some err => Except.error (GoError.wrap "配置SASL SCRAM-SHA-512认证失败" err)
      | none => Except.ok (some ⟨Mechanism.scram ScramAlgorithm.SHA512
          config.SASLUsername config.SASLPassword⟩)
    else
      Except.error (GoError.leaf ("不支持的SASL机制: " ++ config.SASLMechanism))
  else
    Except.ok none

/-! ## Consumer (`consumer.go`) -/

/-- Struct `ConsumerImpl`. `reader` is `none` for a nil pointer; `cancelFunc`
tells whether a cancellation handle is stored. The mutex is not a field: each
method below is one atomic step. -/
structure ConsumerImpl where
  config : Config
  options : Options
  reader : Option Reader
  topics : List String
  connected : Bool
  pausedTopics : List String
  cancelFunc : Bool
deriving DecidableEq, Repr

/-- Function `NewConsumer`. -/
def NewConsumer (config : Config) (options : Options) : ConsumerImpl :=
  let config1 : Config :=
    if config.ConsumerGroupID = "" then
      { config with ConsumerGroupID := config.ClientID ++ "-group" }
    else config
  { config := config1, options := options, reader := none, topics := [],
    connected := false, pausedTopics := [], cancelFunc := false }

/-- Method `ConsumerImpl.Subscribe`. -/
def ConsumerImpl.Subscribe (c : ConsumerImpl) (topics : List String) :
    ConsumerImpl × Option GoError :=
  if c.connected then (c, some (GoError.leaf "已连接的消费者不能改变订阅"))
  else if topics.length = 0 then (c, some (GoError.leaf "至少需要订阅一个主题"))
  else ({ c with topics := topics }, none)

/-- Method `ConsumerImpl.setup`. -/
def ConsumerImpl.setup (scramErr : String → String → Option GoError) (c : ConsumerImpl) :
    ConsumerImpl × Option GoError :=
  if c.connected then (c, none)
  else
    match c.topics with
    | [] => (c, some (GoError.leaf "未订阅任何主题"))
    | topic0 :: _ =>
      let startOffset : StartOffset :=
        if c.options.AutoOffsetReset = "earliest" then StartOffset.FirstOffset
        else if c.options.AutoOffsetReset = "latest" then StartOffset.LastOffset
        else StartOffset.LastOffset
      let readerConfig : ReaderConfig :=
        { Brokers := c.config.Brokers,
          GroupID := c.config.ConsumerGroupID,
          Topic := topic0,
          MaxBytes := c.options.MaxPartitionFetchBytes,
          MaxWait := c.options.FetchMaxWaitMS,
          ReadBackoffMin := Int.tdiv c.options.ReconnectBackoff 2,
          ReadBackoffMax := wrapInt64 (c.options.ReconnectBackoff * 2),
          CommitInterval := c.options.AutoCommitInterval,
          StartOffset := startOffset,
          SessionTimeout := c.options.SessionTimeout,
          RebalanceTimeout := wrapInt64 (c.options.SessionTimeout * 2),
          Dialer := none }
      match saslDialer scramErr c.config with
      | Except.error err => (c, some err)
      | Except.ok dialer =>
        ({ c with reader := some ⟨{ readerConfig with Dialer := dialer }⟩, connected := true },
          none)

/-- Insertion of a key into a `map[string]struct{}`. -/
def setInsert (s : List String) (t : String) : List String :=
  if t ∈ s then s else s ++ [t]

/-- Go `delete(m, t)` on a `map[string]struct{}`. -/
def setDelete (s : List String) (t : String) : List String :=
  s.filter (fun x => decide (x ≠ t))

/-- Method `ConsumerImpl.Pause`. -/
def ConsumerImpl.Pause (c : ConsumerImpl) (topics : List String) :
    ConsumerImpl × Option GoError :=
  ({ c with pausedTopics := topics.foldl setInsert c.pausedTopics }, none)

/-- Method `ConsumerImpl.Resume`. -/
def ConsumerImpl.Resume (c : ConsumerImpl) (topics : List String) :
    ConsumerImpl × Option GoError :=
  ({ c with pausedTopics := topics.foldl setDelete c.pausedTopics }, none)

/-- A `Pause` or `Resume` call made by another task. -/
inductive PauseOp where
  | pause (topics : List String) : PauseOp
  | resume (topics : List String) : PauseOp
deriving DecidableEq, Repr

/-- The consumer after one `Pause` or `Resume` call. -/
def applyPauseOp (c : ConsumerImpl) : PauseOp → ConsumerImpl
  | PauseOp.pause topics => (c.Pause topics).1
  | PauseOp.resume topics => (c.Resume topics).1

/-- The consumer after a sequence of `Pause` and `Resume` calls, in order. -/
def applyPauseOps (c : ConsumerImpl) (ops : List PauseOp) : ConsumerImpl :=
  ops.foldl applyPauseOp c

/-- Assignment `m[k] = v` on a `map[string]string`. -/
def mapSet (m : List (String × Bytes)) (k : String) (v : Bytes) : List (String × Bytes) :=
  match m with
  | [] => [(k, v)]
  | (k1, v1) :: tl => if k1 = k then (k, v) :: tl else (k1, v1) :: mapSet tl k v

/-- The `Message` that `Consume` builds from a fetched driver message. -/
def toMessage (kafkaMsg : KafkaMessage) : Message :=
  { Topic := kafkaMsg.Topic,
    Key := kafkaMsg.Key,
    Value := kafkaMsg.Value,
    Headers := kafkaMsg.Headers.foldl (fun headers h => mapSet headers h.Key h.Value) [],
    Partition := kafkaMsg.Partition,
    Offset := kafkaMsg.Offset,
    Timestamp := kafkaMsg.Time }

/-- Calls that `Consume` makes to the driver, the clock and the handler. -/
inductive Event where
  | fetch : Event
  | sleep (d : Int) : Event
  | handler (msg : Message) : Event
  | commit (m : KafkaMessage) : Event
deriving DecidableEq, Repr

/-- Method `ConsumerImpl.Commit`; `driverErr` is what the driver's
`CommitMessages` returns when it is called. Returns the driver calls made and
the error. -/
def ConsumerImpl.Commit (c : ConsumerImpl) (msg : Message) (driverErr : Option GoError) :
    List Event × Option GoError :=
  match c.reader with
  | none => ([], some (GoError.leaf "Kafka消费者未连接"))
  | some _ =>
    let call : Event := Event.commit
      { Topic := msg.Topic, Partition := msg.Partition, Offset := msg.Offset,
        Key := [], Value := [], Headers := [], Time := 0 }
    match driverErr with
    | some err => ([call], some (GoError.wrap "提交偏移量失败" err))
    | none => ([call], none)

/-- What the environment answers during one pass of the `for` loop of
`Consume`: the Pause/Resume calls other tasks completed since the previous
pass, `ctx.Err()` at the `select` (`none` while the context is live), the
result of `FetchMessage`, and the results of the handler and of the driver's
commit should the pass call them. The handler is given a pointer to the
message: `handler` is the error it returns and `handlerEdit` maps the message it
is given to the message it leaves behind (the identity for a handler that only
reads). -/
structure Iteration where
  ops : List PauseOp
  ctxErr : Option GoError
  fetch : Except GoError KafkaMessage
  handler : Option GoError
  commit : Option GoError
  handlerEdit : Message → Message := id

/-- Outcome of one pass of the loop: the calls made, the consumer, and
`some r` when `Consume` returns `r` in this pass (`none`: the loop goes on). -/
structure PassResult where
  events : List Event
  state : ConsumerImpl
  returned : Option (Option GoError)

/-- One pass of the `for` loop of `Consume` (the body of the `select`). -/
def consumePass (c0 : ConsumerImpl) (it : Iteration) : PassResult :=
  let c := applyPauseOps c0 it.ops
  match it.ctxErr with
  | some e => { events := [], state := c, returned := some (some e) }
  | none =>
    match it.fetch with
    | Except.error err =>
      if err.is GoError.eof || err.is GoError.canceled then
        { events := [Event.fetch], state := c, returned := some none }
      else
        { events := [Event.fetch, Event.sleep c.options.ReconnectBackoff], state := c,
          returned := none }
    | Except.ok kafkaMsg =>
      if kafkaMsg.Topic ∈ c.pausedTopics then
        { events := [Event.fetch], state := c, returned := none }
      else
        let msg := toMessage kafkaMsg
        let msgAfter := it.handlerEdit msg
        let commitCalls : List Event :=
          if !c.options.EnableAutoCommit && it.handler.isNone then
            (c.Commit msgAfter it.commit).1
          else []
        { events := [Event.fetch, Event.handler msg] ++ commitCalls, state := c,
          returned := none }

/-- A run of `Consume`: the calls made in order, the consumer at the end, and
the value returned (`none` when the loop is still running at the end of the
script). -/
structure ConsumeRun where
  events : List Event
  state : ConsumerImpl
  result : Option (Option GoError)

/-- The `for` loop of `Consume` against a script of environment answers. -/
def consumeLoop (c : ConsumerImpl) : List Iteration → ConsumeRun
  | [] => { events := [], state := c, result := none }
  | it :: rest =>
    let p := consumePass c it
    match p.returned with
    | some r => { events := p.events, state := p.state, result := some r }
    | none =>
      let run := consumeLoop p.state rest
      { events := p.events ++ run.events, state := run.state, result := run.result }

/-- Method `ConsumerImpl.Consume`. -/
def ConsumerImpl.Consume (scramErr : String → String → Option GoError) (c : ConsumerImpl)
    (script : List Iteration) : ConsumeRun :=
  match c.setup scramErr with
  | (c1, some err) => { events := [], state := c1, result := some (some err) }
  | (c1, none) => consumeLoop { c1 with cancelFunc := true } script

/-- The messages passed to the handler, in call order. -/
def handlerCalls : List Event → List Message
  | [] => []
  | Event.handler msg :: tl => msg :: handlerCalls tl
  | _ :: tl => handlerCalls tl

/-- The driver messages passed to `CommitMessages`, in call order. -/
def commitCalls : List Event → List KafkaMessage
  | [] => []
  | Event.commit m :: tl => m :: commitCalls tl
  | _ :: tl => commitCalls tl

/-! ## Backoff policy (`github.com/cenkalti/backoff/v4`, as `Produce` uses it) -/

/-- The three `backoff.BackOff` values that `Produce` builds. `exponential n` is
the `*ExponentialBackOff` after `n` calls of `NextBackOff` since its last
`Reset`; `stop` is `*StopBackOff`; `withMaxRetries d maxTries numTries` is the
`*backOffTries` wrapper returned by `backoff.WithMaxRetries(d, maxTries)`. -/
inductive BackOff where
  | exponential (calls : Nat) : BackOff
  | stop : BackOff
  | withMaxRetries (delegate : BackOff) (maxTries numTries : Nat) : BackOff
deriving DecidableEq, Repr

/-- Method `Reset` of the three policies. -/
def BackOff.Reset : BackOff → BackOff
  | BackOff.exponential _ => BackOff.exponential 0
  | BackOff.stop => BackOff.stop
  | BackOff.withMaxRetries d maxTries _ => BackOff.withMaxRetries d.Reset maxTries 0

/-- Method `NextBackOff` of the three policies: the delay before the next
attempt, or `none` for `backoff.Stop`, and the policy afterwards. The delay of
the exponential policy depends on the clock and on a random factor; `expNext n`
is its answer to call number `n` after `Reset` (`none` once the elapsed-time
budget `MaxElapsedTime` is used up). -/
def BackOff.NextBackOff (expNext : Nat → Option Int) : BackOff → Option Int × BackOff
  | BackOff.exponential n => (expNext n, BackOff.exponential (n + 1))
  | BackOff.stop => (none, BackOff.stop)
  | BackOff.withMaxRetries d maxTries numTries =>
    if maxTries = 0 then (none, BackOff.withMaxRetries d maxTries numTries)
    else if maxTries ≤ numTries then (none, BackOff.withMaxRetries d maxTries numTries)
    else
      let r := d.NextBackOff expNext
      (r.1, BackOff.withMaxRetries r.2 maxTries (numTries + 1))

/-- Calls that `Produce` makes to the driver and the clock: `write i ctxErr msg`
is attempt number `i` of `WriteMessages(ctx, msg)`, made while `ctx.Err()` is
`ctxErr`; `sleep d` is the wait of the retry loop. -/
inductive ProducerEvent where
  | write (attempt : Nat) (ctxErr : Option GoError) (msg : KafkaMessage) : ProducerEvent
  | sleep (d : Int) : ProducerEvent
deriving DecidableEq, Repr

/-- A run of the retry loop or of `Produce`: the calls made in order and the
value returned (`none` when the loop is still running after `fuel` attempts). -/
structure ProduceRun where
  events : List ProducerEvent
  result : Option (Option GoError)
deriving DecidableEq, Repr

/-- The loop of `backoff.Retry(operation, b)` after `b.Reset()`, for a policy
without context (the loop then never looks at a context): call the operation,
return nil on success, otherwise ask the policy, return the operation's error on
`Stop`, else wait and go round again. `operation i` is the call made and the
error returned by attempt number `i`. Errors of type `backoff.PermanentError`
do not occur: the driver never returns one. -/
def retryLoop (operation : Nat → ProducerEvent × Option GoError) (expNext : Nat → Option Int) :
    Nat → Nat → BackOff → ProduceRun
  | 0, _, _ => { events := [], result := none }
  | fuel + 1, i, b =>
    match (operation i).2 with
    | none => { events := [(operation i).1], result := some none }
    | some err =>
      match b.NextBackOff expNext with
      | (none, _) => { events := [(operation i).1], result := some (some err) }
      | (some next, b1) =>
        let run := retryLoop operation expNext fuel (i + 1) b1
        { events := (operation i).1 :: ProducerEvent.sleep next :: run.events,
          result := run.result }

/-- Function `backoff.Retry`. -/
def Retry (operation : Nat → ProducerEvent × Option GoError) (expNext : Nat → Option Int)
    (fuel : Nat) (b : BackOff) : ProduceRun :=
  retryLoop operation expNext fuel 0 b.Reset

/-! ## Producer (`producer.go`) -/

/-- Struct `ProducerImpl`; `writer` is `none` for a nil pointer. -/
structure ProducerImpl where
  config : Config
  options : Options
  writer : Option Writer
  connected : Bool
  topicCache : List String
deriving DecidableEq, Repr

/-- Function `NewProducer`. -/
def NewProducer (config : Config) (options : Options) : ProducerImpl :=
  { config := config, options := options, writer := none, connected := false, topicCache := [] }

/-- Method `ProducerImpl.setup`. -/
def ProducerImpl.setup (scramErr : String → String → Option GoError) (p : ProducerImpl) :
    ProducerImpl × Option GoError :=
  if p.connected then (p, none)
  else
    let writerConfig : WriterConfig :=
      { Brokers := p.config.Brokers,
        BatchSize := p.options.BatchSize,
        BatchBytes := p.options.MaxMessageBytes,
        BatchTimeout := p.options.LingerMS,
        RequiredAcks := p.options.Acks,
        MaxAttempts := wrapInt64 (p.options.RetryMax + 1),
        Dialer := none }
    match saslDialer scramErr p.config with
    | Except.error err => (p, some err)
    | Except.ok dialer =>
      ({ p with writer := some (NewWriter { writerConfig with Dialer := dialer }),
                connected := true },
        none)

/-- The retry count that `Produce` passes to `backoff.WithMaxRetries` when
`MaxReconnectRetry` is greater than 1 (the `switch` of `Produce`). -/
def retryCount (maxReconnectRetry : Int) : Nat :=
  if maxReconnectRetry ≤ 5 then 5
  else if maxReconnectRetry ≤ 10 then 10
  else 20

/-- The policy `retryBackOff` that `Produce` chooses from `MaxReconnectRetry`. -/
def retryBackOff (maxReconnectRetry : Int) : BackOff :=
  if maxReconnectRetry ≤ 0 then BackOff.exponential 0
  else if maxReconnectRetry = 1 then BackOff.stop
  else BackOff.withMaxRetries (BackOff.exponential 0) (retryCount maxReconnectRetry) 0

/-- What the environment answers during one call of `Produce`: the error of
`scram.Mechanism`, `time.Now()`, `ctx.Err()` of the caller's context at the
time of write attempt `i` (`none` while the context is live), the error that
the driver's `WriteMessages` returns to attempt `i`, and the delays of the
exponential policy. -/
structure ProduceEnv where
  scramErr : String → String → Option GoError
  now : Int
  ctxErr : Nat → Option GoError
  write : Nat → Option GoError
  expNext : Nat → Option Int

/-- Method `ProducerImpl.Produce`. The headers are taken in the order of the
association list (Go leaves the order of a map iteration open). -/
def ProducerImpl.Produce (env : ProduceEnv) (fuel : Nat) (p : ProducerImpl) (topic : String)
    (key value : Bytes) (headers : List (String × Bytes)) : ProducerImpl × ProduceRun :=
  match p.setup env.scramErr with
  | (p1, some err) => (p1, { events := [], result := some (some err) })
  | (p1, none) =>
    let kafkaHeaders : List Header := headers.map (fun kv => { Key := kv.1, Value := kv.2 })
    let msg : KafkaMessage :=
      { Topic := topic, Partition := 0, Offset := 0, Key := key, Value := value,
        Headers := kafkaHeaders, Time := env.now }
    let operation : Nat → ProducerEvent × Option GoError :=
      fun i => (ProducerEvent.write i (env.ctxErr i) msg, env.write i)
    let run := Retry operation env.expNext fuel (retryBackOff p1.options.MaxReconnectRetry)
    match run.result with
    | some (some err) =>
      (p1, { events := run.events, result := some (some (GoError.wrap "发送Kafka消息失败" err)) })
    | _ => (p1, run)

/-- The attempts of `WriteMessages` among the calls, in order. -/
def writeCalls : List ProducerEvent → List ProducerEvent
  | [] => []
  | ProducerEvent.write i ctxErr msg :: tl => ProducerEvent.write i ctxErr msg :: writeCalls tl
  | _ :: tl => writeCalls tl

/-! ## Concrete values of the source and its tests -/

/-- Function `DefaultOptions` of `kafka.go`; durations in nanoseconds. -/
def DefaultOptions : Options :=
  { ConnectTimeout := 10 * 1000000000,
    SessionTimeout := 30 * 1000000000,
    ReconnectBackoff := 100 * 1000000,
    MaxReconnectRetry := 5,
    Acks := -1,
    RetryMax := 3,
    BatchSize := 16384,
    LingerMS := 100 * 1000000,
    CompressionType := "snappy",
    MaxMessageBytes := 1000000,
    EnableIdempotent := true,
    GroupID := "",
    AutoOffsetReset := "latest",
    EnableAutoCommit := true,
    AutoCommitInterval := 5 * 1000000000,
    MaxPollIntervalMS := 300 * 1000000000,
    FetchMaxWaitMS := 500 * 1000000,
    MaxPartitionFetchBytes := 1048576 }

/-- Helper `createTestConfig` of `kafka_test.go`. -/
def createTestConfig : Config :=
  { Brokers := ["localhost:9093"], SecurityProtocol := "", SASLMechanism := "",
    SASLUsername := "", SASLPassword := "", ClientID := "test-client",
    ConsumerGroupID := "test-group", ConsumerTopics := [], ProducerTopics := [],
    Properties := [], ConnectionTimeout := 0, SessionTimeout := 0 }

/-- A driver whose `scram.Mechanism` accepts every username and password. -/
def scramOk : String → String → Option GoError := fun _ _ => none

/-- The consumer of `TestConsumerSubscribe` after `Subscribe("test-topic")`,
with auto-commit switched off. -/
def manualCommitConsumer : ConsumerImpl :=
  ((NewConsumer createTestConfig { DefaultOptions with EnableAutoCommit := false }).Subscribe
    ["test-topic"]).1

/-- A record of topic `test-topic` at partition 0 with the given offset. -/
def recordAt (offset : Int) : KafkaMessage :=
  { Topic := "test-topic", Partition := 0, Offset := offset, Key := [], Value := [],
    Headers := [], Time := 0 }

/-- A pass in which no other task pauses or resumes, the context is live and
the fetch returns the given record; `handler` is what the handler returns. -/
def fetchPass (m : KafkaMessage) (handler : Option GoError) : Iteration :=
  { ops := [], ctxErr := none, fetch := Except.ok m, handler := handler, commit := none }

/-- A pass in which the context is live and the fetch fails with the given error. -/
def fetchErrorPass (err : GoError) : Iteration :=
  { ops := [], ctxErr := none, fetch := Except.error err, handler := none, commit := none }

/-- The driver message that `Commit` submits for a fetched record: its topic,
partition and offset, every other field zero. -/
def commitTriple (kafkaMsg : KafkaMessage) : KafkaMessage :=
  { Topic := kafkaMsg.Topic, Partition := kafkaMsg.Partition, Offset := kafkaMsg.Offset,
    Key := [], Value := [], Headers := [], Time := 0 }

/-- The paused set after a sequence of `Pause` and `Resume` calls, in order. -/
def pausedAfter (paused : List String) : List PauseOp → List String
  | [] => paused
  | PauseOp.pause topics :: tl => pausedAfter (topics.foldl setInsert paused) tl
  | PauseOp.resume topics :: tl => pausedAfter (topics.foldl setDelete paused) tl

/-- The messages that `toMessage` builds from the successfully fetched records
whose topic is not paused when they are fetched, in fetch order, up to the pass
in which the loop ends (context done, or a fetch error that is end-of-stream or
cancellation). The results of the handler and of the commit play no part. The
records themselves are listed by `fetchedUnpausedRecords`. -/
def fetchedUnpaused (paused : List String) : List Iteration → List Message
  | [] => []
  | it :: rest =>
    match it.ctxErr, it.fetch with
    | some _, _ => []
    | none, Except.error err =>
      if err.is GoError.eof || err.is GoError.canceled then []
      else fetchedUnpaused (pausedAfter paused it.ops) rest
    | none, Except.ok kafkaMsg =>
      if kafkaMsg.Topic ∈ pausedAfter paused it.ops then
        fetchedUnpaused (pausedAfter paused it.ops) rest
      else toMessage kafkaMsg :: fetchedUnpaused (pausedAfter paused it.ops) rest

/-- An environment of `Produce` with a live context in which every write fails
with a transport error and the exponential policy always grants a delay of
100ms. -/
def failingEnv : ProduceEnv :=
  { scramErr := scramOk, now := 0, ctxErr := fun _ => none,
    write := fun _ => some (GoError.leaf "connection refused"),
    expNext := fun _ => some 100000000 }

/-- The producer of `TestProducerProduce`: test configuration, default options. -/
def testProducer : ProducerImpl := NewProducer createTestConfig DefaultOptions

/-! ## Closing sessions (`Flush` and `Close` of `producer.go`, `Close` of `consumer.go`) -/

/-- Calls that `Close` and `Flush` make: the stored cancellation handle
`cancelFunc()`, the driver's `Reader.Close()` and the driver's `Writer.Close()`. -/
inductive SessionCall where
  | cancel : SessionCall
  | readerClose : SessionCall
  | writerClose : SessionCall
deriving DecidableEq, Repr

/-- What a method that closes a session yields: the receiver afterwards, the
calls made in order, and the error returned. -/
structure CloseResult (α : Type) where
  state : α
  calls : List SessionCall
  err : Option GoError

/-- The writer after the driver's `Writer.Close()` has been called on it. -/
def Writer.Close (w : Writer) : Writer := { w with closed := true }

/-- Method `ProducerImpl.Flush`; `closeErr` is what the driver's
`Writer.Close()` returns when it is called. -/
def ProducerImpl.Flush (closeErr : Option GoError) (p : ProducerImpl) (_timeout : Int) :
    CloseResult ProducerImpl :=
  if !p.connected || p.writer.isNone then { state := p, calls := [], err := none }
  else
    { state := { p with writer := p.writer.map Writer.Close },
      calls := [SessionCall.writerClose], err := closeErr }

/-- Method `ProducerImpl.Close`; `closeErr` is what the driver's
`Writer.Close()` returns when it is called. -/
def ProducerImpl.Close (closeErr : Option GoError) (p : ProducerImpl) :
    CloseResult ProducerImpl :=
  if !p.connected || p.writer.isNone then { state := p, calls := [], err := none }
  else
    match closeErr with
    | some err =>
      { state := { p with writer := p.writer.map Writer.Close },
        calls := [SessionCall.writerClose],
        err := some (GoError.wrap "关闭Kafka生产者失败" err) }
    | none =>
      { state := { p with writer := p.writer.map Writer.Close, connected := false },
        calls := [SessionCall.writerClose], err := none }

/-- Method `ConsumerImpl.Close`; `closeErr` is what the driver's
`Reader.Close()` returns when it is called. -/
def ConsumerImpl.Close (closeErr : Option GoError) (c : ConsumerImpl) :
    CloseResult ConsumerImpl :=
  let cancelCalls : List SessionCall := if c.cancelFunc then [SessionCall.cancel] else []
  if !c.connected || c.reader.isNone then { state := c, calls := cancelCalls, err := none }
  else
    match closeErr with
    | some err =>
      { state := c, calls := cancelCalls ++ [SessionCall.readerClose],
        err := some (GoError.wrap "关闭Kafka消费者失败" err) }
    | none =>
      { state := { c with connected := false },
        calls := cancelCalls ++ [SessionCall.readerClose], err := none }

/-- An environment of `Produce` with a live context in which every write
succeeds. -/
def okEnv : ProduceEnv :=
  { scramErr := scramOk, now := 0, ctxErr := fun _ => none, write := fun _ => none,
    expNext := fun _ => some 100000000 }

/-- The producer of `TestProducerProduce` after one successful `Produce`: it is
connected and holds an open write session. -/
def connectedProducer : ProducerImpl :=
  (testProducer.Produce okEnv 1 "test-topic" [] [] []).1

/-! ## What a message must carry of its record -/

/-- Go map read `m[k]` on a `map[string]string`: `none` when the key is absent. -/
def mapGet (m : List (String × Bytes)) (k : String) : Option Bytes :=
  match m with
  | [] => none
  | (k1, v1) :: tl => if k1 = k then some v1 else mapGet tl k

/-- The value of the last header of the record that has the key `k`, `none`
when no header has it. -/
def lastHeaderValue (headers : List Header) (k : String) : Option Bytes :=
  (headers.reverse.find? (fun h => decide (h.Key = k))).map Header.Value

/-- Spec wording of a message that is a fetched record: it has the record's
topic, key, value, partition, offset and time, and its header map has one entry
per key, which reads, for every key, the value of the record's last header
with that key. -/
def carriesRecord (msg : Message) (kafkaMsg : KafkaMessage) : Prop :=
  msg.Topic = kafkaMsg.Topic ∧ msg.Key = kafkaMsg.Key ∧ msg.Value = kafkaMsg.Value ∧
    msg.Partition = kafkaMsg.Partition ∧ msg.Offset = kafkaMsg.Offset ∧
    msg.Timestamp = kafkaMsg.Time ∧
    (msg.Headers.map Prod.fst).Nodup ∧
    ∀ k : String, mapGet msg.Headers k = lastHeaderValue kafkaMsg.Headers k

/-- Spec wording of the records that reach the handler: the successfully
fetched records whose topic is not paused when they are fetched, in fetch order,
up to the pass in which the loop ends. -/
def fetchedUnpausedRecords (paused : List String) : List Iteration → List KafkaMessage
  | [] => []
  | it :: rest =>
    match it.ctxErr, it.fetch with
    | some _, _ => []
    | none, Except.error err =>
      if err.is GoError.eof || err.is GoError.canceled then []
      else fetchedUnpausedRecords (pausedAfter paused it.ops) rest
    | none, Except.ok kafkaMsg =>
      if kafkaMsg.Topic ∈ pausedAfter paused it.ops then
        fetchedUnpausedRecords (pausedAfter paused it.ops) rest
      else kafkaMsg :: fetchedUnpausedRecords (pausedAfter paused it.ops) rest

/-- A record of topic `test-topic` with two headers of the same key. -/
def recordWithHeaders : KafkaMessage :=
  { Topic := "test-topic", Partition := 2, Offset := 7, Key := [107], Value := [118],
    Headers := [Header.mk "source" [120], Header.mk "trace" [1], Header.mk "source" [121]],
    Time := 5 }

/-- A pass in which the context is live, the fetch returns the given record and
the handler sets the `Offset` of the message it is given to `newOffset` before
it returns nil. -/
def offsetEditPass (m : KafkaMessage) (newOffset : Int) : Iteration :=
  { ops := [], ctxErr := none, fetch := Except.ok m, handler := none, commit := none,
    handlerEdit := fun msg => { msg with Offset := newOffset } }

/-! ## Connection strings (`config.go`) -/

/-- Method `Config.DSN`; `strings.Join` is `intercalate`, each `fmt.Sprintf`
with `%s` verbs is the concatenation of its pieces. -/
def Config.DSN (c : Config) : String :=
  let brokers := ",".intercalate c.Brokers
  let auth0 := ""
  let auth :=
    if c.SecurityProtocol ≠ "" ∧ c.SecurityProtocol ≠ "plaintext" then
      let auth1 := c.SecurityProtocol ++ "://"
      if c.SASLMechanism ≠ "" ∧ c.SASLUsername ≠ "" then
        auth1 ++ (c.SASLUsername ++ ":" ++ c.SASLPassword ++ "@")
      else auth1
    else auth0
  "kafka://" ++ auth ++ brokers

/-- Method `Config.String`. -/
def Config.String (c : Config) : String :=
  let brokers := ",".intercalate c.Brokers
  let auth0 := ""
  let auth :=
    if c.SecurityProtocol ≠ "" ∧ c.SecurityProtocol ≠ "plaintext" then
      let auth1 := c.SecurityProtocol ++ "://"
      if c.SASLMechanism ≠ "" ∧ c.SASLUsername ≠ "" then
        auth1 ++ (c.SASLUsername ++ ":***@")
      else auth1
    else auth0
  let groupInfo :=
    if c.ConsumerGroupID ≠ "" then " (group=" ++ c.ConsumerGroupID ++ ")" else ""
  "kafka://" ++ auth ++ brokers ++ groupInfo

/-! ## Sequences of consumer calls -/

/-- One call on a consumer, with the answers of the environment it needs:
`setup` is the first, atomic step of `Consume`, listed on its own because other
calls may come between it and the rest of `Consume`. -/
inductive ConsumerCall where
  | subscribe (topics : List String) : ConsumerCall
  | setup (scramErr : String → String → Option GoError) : ConsumerCall
  | consume (scramErr : String → String → Option GoError) (script : List Iteration) :
      ConsumerCall
  | commit (msg : Message) (driverErr : Option GoError) : ConsumerCall
  | pause (topics : List String) : ConsumerCall
  | resume (topics : List String) : ConsumerCall
  | close (closeErr : Option GoError) : ConsumerCall

/-- The consumer after one call, whether the call succeeds or fails. -/
def ConsumerCall.apply (c : ConsumerImpl) : ConsumerCall → ConsumerImpl
  | ConsumerCall.subscribe topics => (c.Subscribe topics).1
  | ConsumerCall.setup scramErr => (c.setup scramErr).1
  | ConsumerCall.consume scramErr script => (c.Consume scramErr script).state
  | ConsumerCall.commit _ _ => c
  | ConsumerCall.pause topics => (c.Pause topics).1
  | ConsumerCall.resume topics => (c.Resume topics).1
  | ConsumerCall.close closeErr => (c.Close closeErr).state

/-- The consumer after a sequence of calls, in order. -/
def runCalls (c : ConsumerImpl) (calls : List ConsumerCall) : ConsumerImpl :=
  calls.foldl ConsumerCall.apply c

end Kafka

/-! # Package `errors` (`service/pkg/errors/errors.go`) -/

namespace Errors

/-- A Go value of interface type `error` as the package meets it: the nil
interface; a nil `*Error` pointer held in the interface; a pointer to an
`Error` struct with its fields (`Internal` is again an `error`); an error of any
other type, with the text of its `Error()` method and the error it wraps (nil
when it wraps none). -/
inductive GoErr where
  | nil : GoErr
  | nilError : GoErr
  | error (Code Status : Int) (Message Detail : String) (Internal : GoErr) : GoErr
  | other (text : String) (inner : GoErr) : GoErr
deriving DecidableEq, Repr

/-- What `fmt` prints for an `error` operand of the verb `%v`: the result of its
`Error()` method, and `<nil>` for the nil interface and for a nil pointer, whose
method call `fmt` recovers from. For a `*Error` this is the body of
`Error.Error`. -/
def fmtV : GoErr → String
  | GoErr.nil => "<nil>"
  | GoErr.nilError => "<nil>"
  | GoErr.other text _ => text
  | GoErr.error code _ message _ internal =>
    if internal ≠ GoErr.nil then
      "[" ++ toString code ++ "] " ++ message ++ ": " ++ fmtV internal
    else
      "[" ++ toString code ++ "] " ++ message

/-- Method `Error.Error`, called on an `error` value: `none` when the call
panics (nil interface, nil `*Error` receiver reading `e.Internal`); an error of
another type answers with its own text. -/
def Error.Error : GoErr → Option String
  | GoErr.nil => none
  | GoErr.nilError => none
  | GoErr.other text _ => some text
  | GoErr.error code _ message _ internal =>
    if internal ≠ GoErr.nil then
      some ("[" ++ toString code ++ "] " ++ message ++ ": " ++ fmtV internal)
    else
      some ("[" ++ toString code ++ "] " ++ message)

/-- Method `Error.Unwrap` on a `*Error`: `none` when the receiver is not a
non-nil `*Error`. -/
def Error.Unwrap : GoErr → Option GoErr
  | GoErr.error _ _ _ _ internal => some internal
  | _ => none

/-- Function `New`. -/
def New (code status : Int) (message : String) : GoErr :=
  GoErr.error code status message "" GoErr.nil

/-- Function `Wrap`. -/
def Wrap (err : GoErr) (code status : Int) (message : String) : GoErr :=
  GoErr.error code status message "" err

/-- Constant `CodeInvalid`. -/
def CodeInvalid : Int := 1000

/-- Constant `CodeNotFound`. -/
def CodeNotFound : Int := 4000

/-- Function `NotFound`; 404 is `http.StatusNotFound`. -/
def NotFound (message : String) : GoErr :=
  New CodeNotFound 404 (if message = "" then "资源不存在" else message)

/-- Function `IsErrorCode`: `none` when the call panics, which happens when
`err` holds a nil `*Error` pointer and `e.Code` is read through it. -/
def IsErrorCode (err : GoErr) (code : Int) : Option Bool :=
  match err with
  | GoErr.nil => some false
  | GoErr.error c _ _ _ _ => some (decide (c = code))
  | GoErr.nilError => none
  | GoErr.other _ _ => some false

end Errors

/-! # Package `httpclient` (`service/pkg/httpclient/client.go`), URL handling -/

namespace HttpClient

/-- A Go `string` taken as its bytes, since `isAbsoluteURL` measures and slices
by bytes. -/
abbrev GoString := List UInt8

/-- The bytes of a string literal made of ASCII characters. -/
def ascii (s : String) : GoString := s.toList.map (fun ch => UInt8.ofNat ch.toNat)

/-- Go slice expression `s[:n]` on a string: `none` when it panics because `n`
is out of range. -/
def slicePrefix (s : GoString) (n : Nat) : Option GoString :=
  if n ≤ s.length then some (s.take n) else none

/-- Function `isAbsoluteURL`, with the short-circuit evaluation of `&&` and
`||`: `none` when a slice expression panics. -/
def isAbsoluteURL (url : GoString) : Option Bool :=
  if url.length > 7 then
    match slicePrefix url 7 with
    | none => none
    | some p7 =>
      if p7 = ascii "http://" then some true
      else
        match slicePrefix url 8 with
        | none => none
        | some p8 => some (decide (p8 = ascii "https://"))
  else some false

/-- Function `trimTrailingSlash`; 47 is the byte `/`. -/
def trimTrailingSlash (url : GoString) : GoString :=
  if url = [] then url
  else if url.getLast? = some 47 then url.dropLast
  else url

/-- Function `trimLeadingSlash`. -/
def trimLeadingSlash (url : GoString) : GoString :=
  if url = [] then url
  else if url.head? = some 47 then url.tail
  else url

/-- The first statement of `Client.Request`: the URL the request is sent to,
`none` when `isAbsoluteURL` panics. -/
def requestURL (baseURL url : GoString) : Option GoString :=
  if baseURL ≠ [] then
    match isAbsoluteURL url with
    | none => none
    | some true => some url
    | some false => some (trimTrailingSlash baseURL ++ [47] ++ trimLeadingSlash url)
  else some url

end HttpClient

namespace Kafka

/-! ## Lemmas about the consume loop -/

theorem applyPauseOp_fields (c : ConsumerImpl) (op : PauseOp) :
    (applyPauseOp c op).reader = c.reader ∧ (applyPauseOp c op).options = c.options := by
  cases op <;> simp [applyPauseOp, ConsumerImpl.Pause, ConsumerImpl.Resume]

theorem applyPauseOps_fields (ops : List PauseOp) : ∀ c : ConsumerImpl,
    (applyPauseOps c ops).reader = c.reader ∧ (applyPauseOps c ops).options = c.options := by
  induction ops with
  | nil => intro c; simp [applyPauseOps]
  | cons op tl ih =>
    intro c
    have h1 := applyPauseOp_fields c op
    have h2 := ih (applyPauseOp c op)
    simp only [applyPauseOps, List.foldl_cons] at h2 ⊢
    exact ⟨h2.1.trans h1.1, h2.2.trans h1.2⟩

theorem consumePass_state (c : ConsumerImpl) (it : Iteration) :
    (consumePass c it).state = applyPauseOps c it.ops := by
  unfold consumePass
  simp only
  split
  · rfl
  · split
    · split <;> rfl
    · split <;> rfl

theorem consumeLoop_fields (l : List Iteration) : ∀ c : ConsumerImpl,
    (consumeLoop c l).state.reader = c.reader ∧ (consumeLoop c l).state.options = c.options := by
  induction l with
  | nil => intro c; simp [consumeLoop]
  | cons it rest ih =>
    intro c
    have hp := consumePass_state c it
    have hf := applyPauseOps_fields it.ops c
    unfold consumeLoop
    simp only
    split
    · simp only [hp]; exact hf
    · have h2 := ih (consumePass c it).state
      rw [hp] at h2
      simp only [hp]
      exact ⟨h2.1.trans hf.1, h2.2.trans hf.2⟩

theorem consumeLoop_append (pre : List Iteration) : ∀ (c : ConsumerImpl) (l : List Iteration),
    (consumeLoop c pre).result = none →
    consumeLoop c (pre ++ l) =
      { events := (consumeLoop c pre).events ++ (consumeLoop (consumeLoop c pre).state l).events,
        state := (consumeLoop (consumeLoop c pre).state l).state,
        result := (consumeLoop (consumeLoop c pre).state l).result } := by
  induction pre with
  | nil => intro c l _; simp [consumeLoop]
  | cons it rest ih =>
    intro c l h
    cases hr : (consumePass c it).returned with
    | some r => simp [consumeLoop, hr] at h
    | none =>
      have h1 : (consumeLoop (consumePass c it).state rest).result = none := by
        simpa [consumeLoop, hr] using h
      have h2 := ih (consumePass c it).state l h1
      simp [consumeLoop, hr, h2]

theorem setup_ok_fields (scramErr : String → String → Option GoError) (c c1 : ConsumerImpl)
    (h : c.setup scramErr = (c1, none)) :
    c1.options = c.options ∧ c1.pausedTopics = c.pausedTopics ∧
      ((c.connected = true → c.reader.isSome = true) → c1.reader.isSome = true) := by
  unfold ConsumerImpl.setup at h
  by_cases hc : c.connected = true
  · simp only [hc, if_true, Prod.mk.injEq] at h
    obtain ⟨h1, _⟩ := h
    subst h1
    exact ⟨rfl, rfl, fun hinv => hinv hc⟩
  · simp only [hc] at h
    cases ht : c.topics with
    | nil => simp [ht] at h
    | cons t0 tl =>
      simp only [ht] at h
      cases hd : saslDialer scramErr c.config with
      | error e => simp [hd] at h
      | ok d =>
        simp only [hd, Bool.false_eq_true, if_false, Prod.mk.injEq, and_true] at h
        subst h
        exact ⟨rfl, rfl, fun _ => rfl⟩

/-- The consumer with which the loop of `Consume` starts when `setup` succeeds. -/
theorem Consume_running (scramErr : String → String → Option GoError) (c : ConsumerImpl)
    (pre : List Iteration) (h : (c.Consume scramErr pre).result = none) :
    ∃ c1, c.setup scramErr = (c1, none) ∧
      ∀ l, c.Consume scramErr l = consumeLoop { c1 with cancelFunc := true } l := by
  unfold ConsumerImpl.Consume at h
  cases hs : c.setup scramErr with
  | mk c1 e =>
    cases e with
    | some err => simp [hs] at h
    | none =>
      refine ⟨c1, rfl, fun l => ?_⟩
      simp [ConsumerImpl.Consume, hs]

/-- Splitting a run of `Consume` at a pass that the loop reaches. -/
theorem Consume_split (scramErr : String → String → Option GoError) (c : ConsumerImpl)
    (pre : List Iteration) (it : Iteration) (rest : List Iteration)
    (h : (c.Consume scramErr pre).result = none) :
    c.Consume scramErr (pre ++ it :: rest) =
      { events := (c.Consume scramErr pre).events ++
          (consumeLoop (c.Consume scramErr pre).state (it :: rest)).events,
        state := (consumeLoop (c.Consume scramErr pre).state (it :: rest)).state,
        result := (consumeLoop (c.Consume scramErr pre).state (it :: rest)).result } := by
  obtain ⟨c1, _, hl⟩ := Consume_running scramErr c pre h
  rw [hl] at h
  rw [hl, hl]
  exact consumeLoop_append pre _ _ h

theorem Consume_state_fields (scramErr : String → String → Option GoError) (c : ConsumerImpl)
    (pre : List Iteration) (h : (c.Consume scramErr pre).result = none) :
    (c.Consume scramErr pre).state.options = c.options ∧
      ((c.connected = true → c.reader.isSome = true) →
        (c.Consume scramErr pre).state.reader.isSome = true) := by
  obtain ⟨c1, hs, hl⟩ := Consume_running scramErr c pre h
  have hf := setup_ok_fields scramErr c c1 hs
  have hg := consumeLoop_fields pre { c1 with cancelFunc := true }
  rw [hl]
  refine ⟨hg.2.trans hf.1, fun hinv => ?_⟩
  rw [hg.1]
  exact hf.2.2 hinv

theorem commitCalls_append (l1 l2 : List Event) :
    commitCalls (l1 ++ l2) = commitCalls l1 ++ commitCalls l2 := by
  induction l1 with
  | nil => rfl
  | cons e tl ih => cases e <;> simp [commitCalls, ih]

theorem handlerCalls_append (l1 l2 : List Event) :
    handlerCalls (l1 ++ l2) = handlerCalls l1 ++ handlerCalls l2 := by
  induction l1 with
  | nil => rfl
  | cons e tl ih => cases e <;> simp [handlerCalls, ih]

end Kafka

namespace Kafka

theorem mem_foldl_setDelete (topics : List String) : ∀ (paused : List String) (x : String),
    x ∈ topics.foldl setDelete paused ↔ x ∈ paused ∧ x ∉ topics := by
  induction topics with
  | nil => intro paused x; simp
  | cons t tl ih =>
    intro paused x
    rw [List.foldl_cons, ih]
    simp only [setDelete, List.mem_filter, decide_eq_true_eq, List.mem_cons, not_or]
    tauto

theorem applyPauseOps_paused (ops : List PauseOp) : ∀ c : ConsumerImpl,
    (applyPauseOps c ops).pausedTopics = pausedAfter c.pausedTopics ops := by
  induction ops with
  | nil => intro c; rfl
  | cons op tl ih =>
    intro c
    have h := ih (applyPauseOp c op)
    simp only [applyPauseOps, List.foldl_cons] at h ⊢
    rw [h]
    cases op <;> rfl

/-! ## The message built from a record -/

theorem mapGet_mapSet (m : List (String × Bytes)) (k : String) (v : Bytes) (k2 : String) :
    mapGet (mapSet m k v) k2 = if k = k2 then some v else mapGet m k2 := by
  induction m with
  | nil => simp [mapSet, mapGet]
  | cons hd tl ih =>
    obtain ⟨k1, v1⟩ := hd
    by_cases h1 : k1 = k
    · subst h1
      by_cases h2 : k1 = k2
      · simp [mapSet, mapGet, h2]
      · simp [mapSet, mapGet, h2]
    · by_cases h2 : k1 = k2
      · subst h2
        have h3 : ¬ (k = k1) := fun e => h1 e.symm
        simp [mapSet, mapGet, h1, h3]
      · simp [mapSet, mapGet, h1, h2, ih]

theorem mem_keys_mapSet (m : List (String × Bytes)) (k : String) (v : Bytes) (x : String) :
    x ∈ (mapSet m k v).map Prod.fst ↔ x ∈ m.map Prod.fst ∨ x = k := by
  induction m with
  | nil => simp [mapSet]
  | cons hd tl ih =>
    obtain ⟨k1, v1⟩ := hd
    by_cases h1 : k1 = k
    · subst h1
      simp only [mapSet, if_true, List.map_cons, List.mem_cons]
      tauto
    · simp only [mapSet, h1, if_false, List.map_cons, List.mem_cons, ih]
      tauto

theorem nodup_keys_mapSet (m : List (String × Bytes)) (k : String) (v : Bytes)
    (h : (m.map Prod.fst).Nodup) : ((mapSet m k v).map Prod.fst).Nodup := by
  induction m with
  | nil => simp [mapSet]
  | cons hd tl ih =>
    obtain ⟨k1, v1⟩ := hd
    simp only [List.map_cons, List.nodup_cons] at h
    by_cases h1 : k1 = k
    · subst h1
      simp only [mapSet, if_true, List.map_cons, List.nodup_cons]
      exact h
    · simp only [mapSet, h1, if_false, List.map_cons, List.nodup_cons, mem_keys_mapSet]
      refine ⟨?_, ih h.2⟩
      rintro (hm | hk)
      · exact h.1 hm
      · exact hk.elim

theorem headers_fold (headers : List Header) :
    ((headers.foldl (fun m h => mapSet m h.Key h.Value) []).map Prod.fst).Nodup ∧
      ∀ k : String, mapGet (headers.foldl (fun m h => mapSet m h.Key h.Value) []) k
        = lastHeaderValue headers k := by
  induction headers using List.reverseRecOn with
  | nil => exact ⟨by simp, fun k => rfl⟩
  | append_singleton l a ih =>
    refine ⟨?_, fun k => ?_⟩
    · rw [List.foldl_append]
      exact nodup_keys_mapSet _ _ _ ih.1
    · rw [List.foldl_append]
      simp only [List.foldl_cons, List.foldl_nil, mapGet_mapSet, ih.2 k, lastHeaderValue,
        List.reverse_append, List.reverse_cons, List.reverse_nil, List.nil_append,
        List.singleton_append, List.find?_cons]
      by_cases hk : a.Key = k
      · simp [hk]
      · simp [hk]

/-- The message that `Consume` builds carries the record it was built from. -/
theorem toMessage_carriesRecord (kafkaMsg : KafkaMessage) :
    carriesRecord (toMessage kafkaMsg) kafkaMsg :=
  ⟨rfl, rfl, rfl, rfl, rfl, rfl, (headers_fold kafkaMsg.Headers).1,
    (headers_fold kafkaMsg.Headers).2⟩

/-! ## Consumer contracts -/

/-- C1, counterexample: the handler sets the `Offset` of the message it is given
to 99 and returns nil; the one commit call then carries offset 99, not the
record's offset 7. -/
theorem consume_commits_edited_offset :
    (offsetEditPass (recordAt 7) 99).handler = none ∧ (recordAt 7).Offset = 7 ∧
      commitCalls (manualCommitConsumer.Consume scramOk
          [offsetEditPass (recordAt 7) 99]).events
        = [{ Topic := "test-topic", Partition := 0, Offset := 99, Key := [], Value := [],
             Headers := [], Time := 0 }] := by
  decide

/-- C1, amended: with `EnableAutoCommit = false`, a pass of the loop of
`Consume` that fetches a record whose topic is not paused and whose handler call
returns nil hands the handler one message, which carries the record, and calls
the driver's commit exactly once, with the topic, partition and offset that this
message holds when the handler returns: the commit calls of the run are those of
the earlier passes, then this one call, then those of the later passes. When
the handler has left the three fields as they were, the call carries exactly the
record's topic, partition and offset. -/
theorem consume_commits_once_after_handler_success
    (scramErr : String → String → Option GoError) (c : ConsumerImpl)
    (pre : List Iteration) (it : Iteration) (rest : List Iteration) (kafkaMsg : KafkaMessage)
    (hinv : c.connected = true → c.reader.isSome = true)
    (hauto : c.options.EnableAutoCommit = false)
    (hpre : (c.Consume scramErr pre).result = none)
    (hctx : it.ctxErr = none)
    (hfetch : it.fetch = Except.ok kafkaMsg)
    (hpaused : kafkaMsg.Topic ∉ (applyPauseOps (c.Consume scramErr pre).state it.ops).pausedTopics)
    (hhandler : it.handler = none) :
    ∃ msg : Message,
      handlerCalls (consumePass (c.Consume scramErr pre).state it).events = [msg] ∧
      carriesRecord msg kafkaMsg ∧
      commitCalls (consumePass (c.Consume scramErr pre).state it).events
        = [{ Topic := (it.handlerEdit msg).Topic, Partition := (it.handlerEdit msg).Partition,
             Offset := (it.handlerEdit msg).Offset, Key := [], Value := [], Headers := [],
             Time := 0 }] ∧
      commitCalls (c.Consume scramErr (pre ++ it :: rest)).events
        = commitCalls (c.Consume scramErr pre).events ++
            { Topic := (it.handlerEdit msg).Topic, Partition := (it.handlerEdit msg).Partition,
              Offset := (it.handlerEdit msg).Offset, Key := [], Value := [], Headers := [],
              Time := 0 } ::
              commitCalls (consumeLoop
                (applyPauseOps (c.Consume scramErr pre).state it.ops) rest).events ∧
      ((it.handlerEdit msg).Topic = msg.Topic → (it.handlerEdit msg).Partition = msg.Partition →
        (it.handlerEdit msg).Offset = msg.Offset →
        commitCalls (consumePass (c.Consume scramErr pre).state it).events
          = [{ Topic := kafkaMsg.Topic, Partition := kafkaMsg.Partition,
               Offset := kafkaMsg.Offset, Key := [], Value := [], Headers := [],
               Time := 0 }]) := by
  have hf := Consume_state_fields scramErr c pre hpre
  have hg := applyPauseOps_fields it.ops (c.Consume scramErr pre).state
  have hr : (applyPauseOps (c.Consume scramErr pre).state it.ops).reader.isSome = true := by
    rw [hg.1]; exact hf.2 hinv
  have ho : (applyPauseOps (c.Consume scramErr pre).state it.ops).options.EnableAutoCommit
      = false := by
    rw [hg.2, hf.1]; exact hauto
  obtain ⟨r, hr1⟩ := Option.isSome_iff_exists.mp hr
  have hp : consumePass (c.Consume scramErr pre).state it =
      { events := [Event.fetch, Event.handler (toMessage kafkaMsg),
          Event.commit (KafkaMessage.mk (it.handlerEdit (toMessage kafkaMsg)).Topic
            (it.handlerEdit (toMessage kafkaMsg)).Partition
            (it.handlerEdit (toMessage kafkaMsg)).Offset [] [] [] 0)],
        state := applyPauseOps (c.Consume scramErr pre).state it.ops,
        returned := none } := by
    unfold consumePass
    simp only [hctx, hfetch, hpaused, if_false, ho, hhandler, hr1, ConsumerImpl.Commit]
    cases it.commit <;> simp
  have hc := toMessage_carriesRecord kafkaMsg
  refine ⟨toMessage kafkaMsg, ?_, hc, ?_, ?_, fun h1 h2 h3 => ?_⟩
  · rw [hp]; simp [handlerCalls]
  · rw [hp]; simp [commitCalls]
  · rw [Consume_split scramErr c pre it rest hpre]
    simp [consumeLoop, hp, commitCalls_append, commitCalls]
  · rw [hp]
    simp only [commitCalls, h1, h2, h3]
    rfl

/-- Witness of C1 amended: a first record whose handler fails, then the record
at offset 7 whose handler reads the message and succeeds; the commit carries the
record's topic, partition 0 and offset 7. -/
theorem consume_commits_once_after_handler_success_witness :
    ∃ msg : Message,
      handlerCalls (consumePass (manualCommitConsumer.Consume scramOk
          [fetchPass (recordAt 6) (some (GoError.leaf "boom"))]).state
          (fetchPass (recordAt 7) none)).events = [msg] ∧
      carriesRecord msg (recordAt 7) ∧
      commitCalls (consumePass (manualCommitConsumer.Consume scramOk
          [fetchPass (recordAt 6) (some (GoError.leaf "boom"))]).state
          (fetchPass (recordAt 7) none)).events
        = [{ Topic := "test-topic", Partition := 0, Offset := 7, Key := [], Value := [],
             Headers := [], Time := 0 }] :=
  match consume_commits_once_after_handler_success scramOk manualCommitConsumer
      [fetchPass (recordAt 6) (some (GoError.leaf "boom"))] (fetchPass (recordAt 7) none) []
      (recordAt 7) (by decide) (by decide) (by decide) (by decide) rfl (by decide)
      (by decide) with
  | ⟨msg, h1, h2, _, _, h5⟩ => ⟨msg, h1, h2, h5 rfl rfl rfl⟩

/-- C2: a pass of the loop of `Consume` that fetches a record for which the
handler returns an error makes no commit call: the commit calls of the run are
those of the earlier passes followed by those of the later passes. This holds
for both values of `EnableAutoCommit`, so in particular for `false`. -/
theorem consume_no_commit_after_handler_error
    (scramErr : String → String → Option GoError) (c : ConsumerImpl)
    (pre : List Iteration) (it : Iteration) (rest : List Iteration) (kafkaMsg : KafkaMessage)
    (err : GoError)
    (hpre : (c.Consume scramErr pre).result = none)
    (hctx : it.ctxErr = none)
    (hfetch : it.fetch = Except.ok kafkaMsg)
    (hhandler : it.handler = some err) :
    commitCalls (consumePass (c.Consume scramErr pre).state it).events = [] ∧
      commitCalls (c.Consume scramErr (pre ++ it :: rest)).events
        = commitCalls (c.Consume scramErr pre).events ++
            commitCalls (consumeLoop
              (applyPauseOps (c.Consume scramErr pre).state it.ops) rest).events := by
  have hs := consumePass_state (c.Consume scramErr pre).state it
  have hp : commitCalls (consumePass (c.Consume scramErr pre).state it).events = [] ∧
      (consumePass (c.Consume scramErr pre).state it).returned = none := by
    unfold consumePass
    simp only [hctx, hfetch, hhandler]
    split <;> simp [commitCalls]
  refine ⟨hp.1, ?_⟩
  rw [Consume_split scramErr c pre it rest hpre]
  simp [consumeLoop, hp.2, hp.1, hs, commitCalls_append]

/-- Witness of C2: the handler fails on the record at offset 6. -/
theorem consume_no_commit_after_handler_error_witness :
    commitCalls (consumePass (manualCommitConsumer.Consume scramOk []).state
        (fetchPass (recordAt 6) (some (GoError.leaf "boom")))).events = [] ∧
      commitCalls (manualCommitConsumer.Consume scramOk
          ([] ++ fetchPass (recordAt 6) (some (GoError.leaf "boom")) ::
            [fetchPass (recordAt 7) none])).events
        = commitCalls (manualCommitConsumer.Consume scramOk []).events ++
            commitCalls (consumeLoop
              (applyPauseOps (manualCommitConsumer.Consume scramOk []).state
                (fetchPass (recordAt 6) (some (GoError.leaf "boom"))).ops)
              [fetchPass (recordAt 7) none]).events :=
  consume_no_commit_after_handler_error scramOk manualCommitConsumer []
    (fetchPass (recordAt 6) (some (GoError.leaf "boom"))) [fetchPass (recordAt 7) none]
    (recordAt 6) (GoError.leaf "boom") (by decide) (by decide) rfl (by decide)

end Kafka

namespace Kafka

/-- C3: a pass of the loop of `Consume` that fetches a record whose topic is in
the paused set when the pass checks it calls neither the handler nor the commit:
its only call is the fetch, the record is dropped, and the run continues with
the next pass of the loop. -/
theorem consume_skips_paused_record
    (scramErr : String → String → Option GoError) (c : ConsumerImpl)
    (pre : List Iteration) (it : Iteration) (rest : List Iteration) (kafkaMsg : KafkaMessage)
    (hpre : (c.Consume scramErr pre).result = none)
    (hctx : it.ctxErr = none)
    (hfetch : it.fetch = Except.ok kafkaMsg)
    (hpaused : kafkaMsg.Topic ∈ (applyPauseOps (c.Consume scramErr pre).state it.ops).pausedTopics) :
    handlerCalls (consumePass (c.Consume scramErr pre).state it).events = [] ∧
      commitCalls (consumePass (c.Consume scramErr pre).state it).events = [] ∧
      (c.Consume scramErr (pre ++ it :: rest)).events
        = (c.Consume scramErr pre).events ++ Event.fetch ::
            (consumeLoop (applyPauseOps (c.Consume scramErr pre).state it.ops) rest).events ∧
      (c.Consume scramErr (pre ++ it :: rest)).result
        = (consumeLoop (applyPauseOps (c.Consume scramErr pre).state it.ops) rest).result := by
  have hp : consumePass (c.Consume scramErr pre).state it =
      { events := [Event.fetch],
        state := applyPauseOps (c.Consume scramErr pre).state it.ops,
        returned := none } := by
    unfold consumePass
    simp only [hctx, hfetch, hpaused, if_true]
  refine ⟨by rw [hp]; rfl, by rw [hp]; rfl, ?_, ?_⟩
  · rw [Consume_split scramErr c pre it rest hpre]
    simp [consumeLoop, hp]
  · rw [Consume_split scramErr c pre it rest hpre]
    simp [consumeLoop, hp]

/-- Witness of C3: another task pauses `test-topic` before the record at offset
6 is checked; the record at offset 7 follows. -/
theorem consume_skips_paused_record_witness :
    handlerCalls (consumePass (manualCommitConsumer.Consume scramOk []).state
        { ops := [PauseOp.pause ["test-topic"]], ctxErr := none,
          fetch := Except.ok (recordAt 6), handler := none, commit := none }).events = [] ∧
      (manualCommitConsumer.Consume scramOk
          ([] ++ { ops := [PauseOp.pause ["test-topic"]], ctxErr := none,
                   fetch := Except.ok (recordAt 6), handler := none, commit := none } ::
            [fetchErrorPass GoError.eof])).result = some none :=
  have h := consume_skips_paused_record scramOk manualCommitConsumer []
    { ops := [PauseOp.pause ["test-topic"]], ctxErr := none,
      fetch := Except.ok (recordAt 6), handler := none, commit := none }
    [fetchErrorPass GoError.eof] (recordAt 6) (by decide) (by decide) rfl (by decide)
  ⟨h.1, h.2.2.2⟩

/-- C4: whatever `Pause` and `Resume` calls came before, after `Resume` of a
list containing `t` the topic `t` is not in the paused set, and the next pass
of the loop that fetches a record of topic `t` (no other task pausing in
between) calls the handler once, with a message that carries that record: its
topic, key, value, partition, offset, time and headers. -/
theorem resume_unpauses_topic (c : ConsumerImpl) (ops : List PauseOp) (topics : List String)
    (t : String) (it : Iteration) (rest : List Iteration) (kafkaMsg : KafkaMessage)
    (ht : t ∈ topics)
    (hops : it.ops = [])
    (hctx : it.ctxErr = none)
    (hfetch : it.fetch = Except.ok kafkaMsg)
    (htopic : kafkaMsg.Topic = t) :
    ((applyPauseOps c ops).Resume topics).2 = none ∧
      t ∉ ((applyPauseOps c ops).Resume topics).1.pausedTopics ∧
      ∃ msg : Message, carriesRecord msg kafkaMsg ∧ msg.Topic = t ∧
        handlerCalls (consumePass ((applyPauseOps c ops).Resume topics).1 it).events
          = [msg] ∧
        handlerCalls (consumeLoop ((applyPauseOps c ops).Resume topics).1 (it :: rest)).events
          = msg ::
              handlerCalls (consumeLoop ((applyPauseOps c ops).Resume topics).1 rest).events := by
  have hnot : t ∉ ((applyPauseOps c ops).Resume topics).1.pausedTopics := by
    simp only [ConsumerImpl.Resume]
    rw [mem_foldl_setDelete]
    exact fun h => h.2 ht
  have hst : applyPauseOps ((applyPauseOps c ops).Resume topics).1 it.ops
      = ((applyPauseOps c ops).Resume topics).1 := by
    rw [hops]; rfl
  have hp : handlerCalls (consumePass ((applyPauseOps c ops).Resume topics).1 it).events
        = [toMessage kafkaMsg] ∧
      (consumePass ((applyPauseOps c ops).Resume topics).1 it).returned = none ∧
      (consumePass ((applyPauseOps c ops).Resume topics).1 it).state
        = ((applyPauseOps c ops).Resume topics).1 := by
    refine ⟨?_, ?_, ?_⟩
    · unfold consumePass
      simp only [hctx, hfetch, hst, htopic, hnot, if_false]
      simp only [List.cons_append, List.nil_append, handlerCalls]
      split
      · simp only [ConsumerImpl.Commit]
        split
        · rfl
        · split <;> rfl
      · rfl
    · unfold consumePass
      simp only [hctx, hfetch, hst, htopic, hnot, if_false]
    · rw [consumePass_state, hst]
  have hc := toMessage_carriesRecord kafkaMsg
  refine ⟨rfl, hnot, toMessage kafkaMsg, hc, hc.1.trans htopic, hp.1, ?_⟩
  simp [consumeLoop, hp.2.1, hp.2.2, handlerCalls_append, hp.1]

/-- Witness of C4: `test-topic` is paused twice, resumed once, and its next
record, which has headers and a key, reaches the handler. -/
theorem resume_unpauses_topic_witness :
    "test-topic" ∉ ((applyPauseOps manualCommitConsumer
        [PauseOp.pause ["test-topic"], PauseOp.pause ["test-topic", "other"]]).Resume
          ["test-topic"]).1.pausedTopics ∧
      ∃ msg : Message, carriesRecord msg recordWithHeaders ∧ msg.Topic = "test-topic" ∧
        handlerCalls (consumePass ((applyPauseOps manualCommitConsumer
          [PauseOp.pause ["test-topic"], PauseOp.pause ["test-topic", "other"]]).Resume
            ["test-topic"]).1 (fetchPass recordWithHeaders none)).events = [msg] :=
  have h := resume_unpauses_topic manualCommitConsumer
    [PauseOp.pause ["test-topic"], PauseOp.pause ["test-topic", "other"]] ["test-topic"]
    "test-topic" (fetchPass recordWithHeaders none) [] recordWithHeaders (by decide) rfl rfl rfl
    rfl
  match h with
  | ⟨_, h2, msg, h3, h4, h5, _⟩ => ⟨h2, msg, h3, h4, h5⟩

end Kafka

namespace Kafka

theorem handlerCalls_Commit (c : ConsumerImpl) (msg : Message) (driverErr : Option GoError) :
    handlerCalls (c.Commit msg driverErr).1 = [] := by
  unfold ConsumerImpl.Commit
  split
  · rfl
  · split <;> rfl

theorem consumeLoop_handlerCalls (script : List Iteration) : ∀ c : ConsumerImpl,
    handlerCalls (consumeLoop c script).events = fetchedUnpaused c.pausedTopics script := by
  induction script with
  | nil => intro c; rfl
  | cons it rest ih =>
    intro c
    have hpa := applyPauseOps_paused it.ops c
    have ih1 := ih (applyPauseOps c it.ops)
    rw [hpa] at ih1
    cases hctx : it.ctxErr with
    | some e => simp [consumeLoop, fetchedUnpaused, consumePass, hctx, handlerCalls]
    | none =>
      cases hfetch : it.fetch with
      | error err =>
        by_cases hterm : (err.is GoError.eof || err.is GoError.canceled) = true
        · simp [consumeLoop, fetchedUnpaused, consumePass, hctx, hfetch, hterm, handlerCalls]
        · simp [consumeLoop, fetchedUnpaused, consumePass, hctx, hfetch, hterm, handlerCalls,
            handlerCalls_append, ih1]
      | ok m =>
        by_cases hp : m.Topic ∈ pausedAfter c.pausedTopics it.ops
        · simp [consumeLoop, fetchedUnpaused, consumePass, hctx, hfetch, hpa, hp, handlerCalls,
            handlerCalls_append, ih1]
        · have hc := handlerCalls_Commit (applyPauseOps c it.ops) (it.handlerEdit (toMessage m))
            it.commit
          simp only [consumeLoop, fetchedUnpaused, consumePass, hctx, hfetch, hpa, hp, if_false,
            handlerCalls_append, ih1, List.cons_append, List.nil_append, handlerCalls]
          split <;> simp [hc, handlerCalls]

theorem fetchedUnpaused_eq_map (script : List Iteration) : ∀ paused : List String,
    fetchedUnpaused paused script = (fetchedUnpausedRecords paused script).map toMessage := by
  induction script with
  | nil => intro paused; rfl
  | cons it rest ih =>
    intro paused
    cases hctx : it.ctxErr with
    | some e => simp [fetchedUnpaused, fetchedUnpausedRecords, hctx]
    | none =>
      cases hfetch : it.fetch with
      | error err =>
        by_cases hterm : (err.is GoError.eof || err.is GoError.canceled) = true
        · simp [fetchedUnpaused, fetchedUnpausedRecords, hctx, hfetch, hterm]
        · simp [fetchedUnpaused, fetchedUnpausedRecords, hctx, hfetch, hterm, ih]
      | ok m =>
        by_cases hp : m.Topic ∈ pausedAfter paused it.ops
        · simp [fetchedUnpaused, fetchedUnpausedRecords, hctx, hfetch, hp, ih]
        · simp [fetchedUnpaused, fetchedUnpausedRecords, hctx, hfetch, hp, ih]

theorem forall2_carriesRecord_map (records : List KafkaMessage) :
    List.Forall₂ carriesRecord (records.map toMessage) records := by
  induction records with
  | nil => exact List.Forall₂.nil
  | cons r tl ih => exact List.Forall₂.cons (toMessage_carriesRecord r) ih

/-- C5: for every script of fetch results, the messages that a run of `Consume`
passes to the handler correspond one to one, in fetch order, to the successfully
fetched records whose topic is not paused when they are fetched, up to the pass
in which the loop ends, and each message carries its record: topic, key, value,
partition, offset, time and headers. The list of records does not read what the
handler or the commit returned, so neither a handler error nor a commit failure
stops the loop or makes it skip a later record. -/
theorem consume_handler_sequence (scramErr : String → String → Option GoError)
    (c : ConsumerImpl) (script : List Iteration)
    (hsetup : (c.setup scramErr).2 = none) :
    List.Forall₂ carriesRecord (handlerCalls (c.Consume scramErr script).events)
        (fetchedUnpausedRecords c.pausedTopics script) ∧
      handlerCalls (c.Consume scramErr script).events
        = fetchedUnpaused c.pausedTopics script := by
  have heq : handlerCalls (c.Consume scramErr script).events
      = fetchedUnpaused c.pausedTopics script := by
    cases hs : c.setup scramErr with
    | mk c1 e =>
      rw [hs] at hsetup
      simp only at hsetup
      subst hsetup
      have hf := setup_ok_fields scramErr c c1 hs
      have hl := consumeLoop_handlerCalls script { c1 with cancelFunc := true }
      simp only [ConsumerImpl.Consume, hs]
      rw [hl, hf.2.1]
  refine ⟨?_, heq⟩
  rw [heq, fetchedUnpaused_eq_map]
  exact forall2_carriesRecord_map _

/-- Witness of C5: the handler fails on the first record, the commit fails on
the second, which has headers, a transient fetch error follows, and all three
records reach the handler in order. -/
theorem consume_handler_sequence_witness :
    List.Forall₂ carriesRecord
      (handlerCalls (manualCommitConsumer.Consume scramOk
        [fetchPass (recordAt 1) (some (GoError.leaf "boom")),
         { ops := [], ctxErr := none, fetch := Except.ok recordWithHeaders, handler := none,
           commit := some (GoError.leaf "commit failed") },
         fetchErrorPass (GoError.leaf "broker down"),
         fetchPass (recordAt 3) none]).events)
      [recordAt 1, recordWithHeaders, recordAt 3] :=
  (consume_handler_sequence scramOk manualCommitConsumer
    [fetchPass (recordAt 1) (some (GoError.leaf "boom")),
     { ops := [], ctxErr := none, fetch := Except.ok recordWithHeaders, handler := none,
       commit := some (GoError.leaf "commit failed") },
     fetchErrorPass (GoError.leaf "broker down"),
     fetchPass (recordAt 3) none] (by decide)).1

/-- C6, counterexample: the context is live at the `select`, the fetch reports
the cancellation as `context.Canceled`, and `Consume` returns nil. -/
theorem consume_fetch_canceled_returns_nil :
    (fetchErrorPass GoError.canceled).ctxErr = none ∧
      GoError.is GoError.canceled GoError.canceled = true ∧
      (manualCommitConsumer.Consume scramOk [fetchErrorPass GoError.canceled]).result
        = some none := by
  decide

/-- C6, amended: in a pass that the loop reaches, a cancellation seen at the
`select` makes `Consume` return the context's error, which is not nil; a
cancellation that the fetch reports as an error matching `context.Canceled`
makes `Consume` return nil. -/
theorem consume_cancellation_result
    (scramErr : String → String → Option GoError) (c : ConsumerImpl)
    (pre : List Iteration) (it : Iteration) (rest : List Iteration)
    (hpre : (c.Consume scramErr pre).result = none) :
    (∀ e : GoError, it.ctxErr = some e →
        (c.Consume scramErr (pre ++ it :: rest)).result = some (some e)) ∧
      (∀ err : GoError, it.ctxErr = none → it.fetch = Except.error err →
        err.is GoError.canceled = true →
        (c.Consume scramErr (pre ++ it :: rest)).result = some none) := by
  refine ⟨fun e hctx => ?_, fun err hctx hfetch hcan => ?_⟩
  · rw [Consume_split scramErr c pre it rest hpre]
    simp [consumeLoop, consumePass, hctx]
  · rw [Consume_split scramErr c pre it rest hpre]
    simp [consumeLoop, consumePass, hctx, hfetch, hcan]

/-- Witness of C6 amended: after one handled record, a done context at the
`select` gives `context.Canceled`, a wrapped cancellation from the fetch gives nil. -/
theorem consume_cancellation_result_witness :
    (manualCommitConsumer.Consume scramOk
        ([fetchPass (recordAt 1) none] ++
          { ops := [], ctxErr := some GoError.canceled, fetch := Except.ok (recordAt 2),
            handler := none, commit := none } :: [])).result = some (some GoError.canceled) ∧
      (manualCommitConsumer.Consume scramOk
        ([fetchPass (recordAt 1) none] ++
          fetchErrorPass (GoError.wrap "fetch" GoError.canceled) :: [])).result = some none :=
  ⟨(consume_cancellation_result scramOk manualCommitConsumer [fetchPass (recordAt 1) none]
      { ops := [], ctxErr := some GoError.canceled, fetch := Except.ok (recordAt 2),
        handler := none, commit := none } [] (by decide)).1 GoError.canceled rfl,
   (consume_cancellation_result scramOk manualCommitConsumer [fetchPass (recordAt 1) none]
      (fetchErrorPass (GoError.wrap "fetch" GoError.canceled)) [] (by decide)).2
      (GoError.wrap "fetch" GoError.canceled) rfl rfl (by decide)⟩

/-- C7: in a pass that the loop reaches, a fetch error that is neither
end-of-stream nor cancellation is not returned: the pass makes the fetch call,
sleeps `ReconnectBackoff`, calls neither the handler nor the commit, and the run
continues with the next pass; a fetch error that is end-of-stream makes
`Consume` return nil. -/
theorem consume_fetch_error
    (scramErr : String → String → Option GoError) (c : ConsumerImpl)
    (pre : List Iteration) (it : Iteration) (rest : List Iteration) (err : GoError)
    (hpre : (c.Consume scramErr pre).result = none)
    (hctx : it.ctxErr = none)
    (hfetch : it.fetch = Except.error err) :
    (err.is GoError.eof = false → err.is GoError.canceled = false →
        (consumePass (c.Consume scramErr pre).state it).events
          = [Event.fetch, Event.sleep c.options.ReconnectBackoff] ∧
        (c.Consume scramErr (pre ++ it :: rest)).events
          = (c.Consume scramErr pre).events ++
              Event.fetch :: Event.sleep c.options.ReconnectBackoff ::
                (consumeLoop (applyPauseOps (c.Consume scramErr pre).state it.ops) rest).events ∧
        (c.Consume scramErr (pre ++ it :: rest)).result
          = (consumeLoop (applyPauseOps (c.Consume scramErr pre).state it.ops) rest).result) ∧
      (err.is GoError.eof = true →
        (c.Consume scramErr (pre ++ it :: rest)).result = some none) := by
  have hf := Consume_state_fields scramErr c pre hpre
  have hg := applyPauseOps_fields it.ops (c.Consume scramErr pre).state
  have ho : (applyPauseOps (c.Consume scramErr pre).state it.ops).options.ReconnectBackoff
      = c.options.ReconnectBackoff := by
    rw [hg.2, hf.1]
  refine ⟨fun heof hcan => ?_, fun heof => ?_⟩
  · have hp : consumePass (c.Consume scramErr pre).state it =
        { events := [Event.fetch, Event.sleep c.options.ReconnectBackoff],
          state := applyPauseOps (c.Consume scramErr pre).state it.ops,
          returned := none } := by
      unfold consumePass
      simp [hctx, hfetch, heof, hcan, ho]
    refine ⟨by rw [hp], ?_, ?_⟩
    · rw [Consume_split scramErr c pre it rest hpre]
      simp [consumeLoop, hp]
    · rw [Consume_split scramErr c pre it rest hpre]
      simp [consumeLoop, hp]
  · rw [Consume_split scramErr c pre it rest hpre]
    simp [consumeLoop, consumePass, hctx, hfetch, heof]

/-- Witness of C7: a broker failure is followed by a handled record and then by
end-of-stream. -/
theorem consume_fetch_error_witness :
    (manualCommitConsumer.Consume scramOk
        ([] ++ fetchErrorPass (GoError.leaf "broker down") ::
          [fetchPass (recordAt 4) none])).events
      = [Event.fetch, Event.sleep 100000000, Event.fetch, Event.handler (toMessage (recordAt 4)),
         Event.commit (commitTriple (recordAt 4))] ∧
      (manualCommitConsumer.Consume scramOk
        ([fetchPass (recordAt 4) none] ++ fetchErrorPass GoError.eof :: [])).result
        = some none :=
  ⟨((consume_fetch_error scramOk manualCommitConsumer [] (fetchErrorPass (GoError.leaf "broker down"))
      [fetchPass (recordAt 4) none] (GoError.leaf "broker down") (by decide) rfl rfl).1
      (by decide) (by decide)).2.1,
   (consume_fetch_error scramOk manualCommitConsumer [fetchPass (recordAt 4) none]
      (fetchErrorPass GoError.eof) [] GoError.eof (by decide) rfl rfl).2 (by decide)⟩

end Kafka

namespace Kafka

/-! ## Lemmas about the retry loop -/

theorem retryLoop_stop (op : Nat → ProducerEvent × Option GoError) (expNext : Nat → Option Int)
    (fuel i : Nat) :
    retryLoop op expNext (fuel + 1) i BackOff.stop
      = { events := [(op i).1], result := some (op i).2 } := by
  simp only [retryLoop]
  cases h : (op i).2 <;> simp [BackOff.NextBackOff]

theorem retryLoop_capped (op : Nat → ProducerEvent × Option GoError)
    (expNext : Nat → Option Int)
    (hfail : ∀ i, (op i).2 ≠ none)
    (hev : ∀ i l, writeCalls ((op i).1 :: l) = (op i).1 :: writeCalls l) :
    ∀ (r j n i fuel : Nat), r < fuel →
      ∃ a, a ≤ r ∧
        (writeCalls (retryLoop op expNext fuel i
          (BackOff.withMaxRetries (BackOff.exponential n) (j + r) j)).events).length = a + 1 ∧
        (retryLoop op expNext fuel i
          (BackOff.withMaxRetries (BackOff.exponential n) (j + r) j)).result
            = some (op (i + a)).2 ∧
        ((∀ m, m < r → expNext (n + m) ≠ none) → a = r) := by
  intro r
  induction r with
  | zero =>
    intro j n i fuel hfuel
    obtain ⟨f, rfl⟩ : ∃ f, fuel = f + 1 := ⟨fuel - 1, by omega⟩
    obtain ⟨err, herr⟩ := Option.ne_none_iff_exists'.mp (hfail i)
    refine ⟨0, le_refl _, ?_, ?_, fun _ => rfl⟩
    · simp [retryLoop, herr, BackOff.NextBackOff, hev, writeCalls]
    · simp [retryLoop, herr, BackOff.NextBackOff]
  | succ r ih =>
    intro j n i fuel hfuel
    obtain ⟨f, rfl⟩ : ∃ f, fuel = f + 1 := ⟨fuel - 1, by omega⟩
    obtain ⟨err, herr⟩ := Option.ne_none_iff_exists'.mp (hfail i)
    have h1 : ¬ (j + (r + 1) = 0) := by omega
    have h2 : ¬ (j + (r + 1) ≤ j) := by omega
    cases hn : expNext n with
    | none =>
      refine ⟨0, Nat.zero_le _, ?_, ?_, fun hall => ?_⟩
      · simp [retryLoop, herr, BackOff.NextBackOff, h1, h2, hn, hev, writeCalls]
      · simp [retryLoop, herr, BackOff.NextBackOff, h1, h2, hn]
      · exact absurd hn (hall 0 (Nat.succ_pos r))
    | some d =>
      obtain ⟨a, ha, hlen, hres, hexact⟩ := ih (j + 1) (n + 1) (i + 1) f (by omega)
      have hj : j + 1 + r = j + (r + 1) := by omega
      rw [hj] at hlen hres
      refine ⟨a + 1, by omega, ?_, ?_, fun hall => ?_⟩
      · simp only [retryLoop, herr, BackOff.NextBackOff, h1, h2, hn, if_false, hev, writeCalls,
          List.length_cons, hlen]
      · rw [show i + 1 + a = i + (a + 1) by omega] at hres
        simp only [retryLoop, herr, BackOff.NextBackOff, h1, h2, hn, if_false, hres]
      · have := hexact (fun m hm => by
          have := hall (m + 1) (by omega)
          rwa [show n + (m + 1) = n + 1 + m by omega] at this)
        omega

theorem retryLoop_exponential (op : Nat → ProducerEvent × Option GoError)
    (expNext : Nat → Option Int)
    (hfail : ∀ i, (op i).2 ≠ none)
    (hev : ∀ i l, writeCalls ((op i).1 :: l) = (op i).1 :: writeCalls l) :
    ∀ (s n i fuel : Nat), s < fuel → expNext (n + s) = none →
      ∃ a, a ≤ s ∧
        (writeCalls (retryLoop op expNext fuel i (BackOff.exponential n)).events).length
          = a + 1 ∧
        (retryLoop op expNext fuel i (BackOff.exponential n)).result = some (op (i + a)).2 ∧
        ((∀ m, m < s → expNext (n + m) ≠ none) → a = s) := by
  intro s
  induction s with
  | zero =>
    intro n i fuel hfuel hstop
    obtain ⟨f, rfl⟩ : ∃ f, fuel = f + 1 := ⟨fuel - 1, by omega⟩
    obtain ⟨err, herr⟩ := Option.ne_none_iff_exists'.mp (hfail i)
    simp only [Nat.add_zero] at hstop
    refine ⟨0, le_refl _, ?_, ?_, fun _ => rfl⟩
    · simp [retryLoop, herr, BackOff.NextBackOff, hstop, hev, writeCalls]
    · simp [retryLoop, herr, BackOff.NextBackOff, hstop]
  | succ s ih =>
    intro n i fuel hfuel hstop
    obtain ⟨f, rfl⟩ : ∃ f, fuel = f + 1 := ⟨fuel - 1, by omega⟩
    obtain ⟨err, herr⟩ := Option.ne_none_iff_exists'.mp (hfail i)
    cases hn : expNext n with
    | none =>
      refine ⟨0, Nat.zero_le _, ?_, ?_, fun hall => ?_⟩
      · simp [retryLoop, herr, BackOff.NextBackOff, hn, hev, writeCalls]
      · simp [retryLoop, herr, BackOff.NextBackOff, hn]
      · exact absurd hn (hall 0 (Nat.succ_pos s))
    | some d =>
      obtain ⟨a, ha, hlen, hres, hexact⟩ := ih (n + 1) (i + 1) f (by omega)
        (by rwa [show n + 1 + s = n + (s + 1) by omega])
      refine ⟨a + 1, by omega, ?_, ?_, fun hall => ?_⟩
      · simp only [retryLoop, herr, BackOff.NextBackOff, hn, hev, writeCalls,
          List.length_cons, hlen]
      · rw [show i + 1 + a = i + (a + 1) by omega] at hres
        simp only [retryLoop, herr, BackOff.NextBackOff, hn, hres]
      · have := hexact (fun m hm => by
          have := hall (m + 1) (by omega)
          rwa [show n + (m + 1) = n + 1 + m by omega] at this)
        omega

end Kafka

namespace Kafka

/-! ## Lemmas about `Produce` -/

theorem producer_setup_options (scramErr : String → String → Option GoError)
    (p : ProducerImpl) (h : (p.setup scramErr).2 = none) :
    (p.setup scramErr).1.options = p.options := by
  unfold ProducerImpl.setup at h ⊢
  by_cases hc : p.connected = true
  · simp [hc]
  · simp only [hc, Bool.false_eq_true, if_false] at h ⊢
    cases hd : saslDialer scramErr p.config with
    | error e => simp [hd] at h
    | ok d => simp

theorem retryBackOff_Reset (n : Int) : (retryBackOff n).Reset = retryBackOff n := by
  unfold retryBackOff
  split
  · rfl
  · split <;> rfl

/-- The message that `Produce` hands to the driver. -/
theorem Produce_eq_Retry (env : ProduceEnv) (fuel : Nat) (p : ProducerImpl) (topic : String)
    (key value : Bytes) (headers : List (String × Bytes))
    (hsetup : (p.setup env.scramErr).2 = none) :
    ∃ msg : KafkaMessage,
      (p.Produce env fuel topic key value headers).2.events
        = (retryLoop (fun i => (ProducerEvent.write i (env.ctxErr i) msg, env.write i))
            env.expNext fuel 0 (retryBackOff p.options.MaxReconnectRetry)).events ∧
      (p.Produce env fuel topic key value headers).2.result
        = (match (retryLoop (fun i => (ProducerEvent.write i (env.ctxErr i) msg, env.write i))
            env.expNext fuel 0 (retryBackOff p.options.MaxReconnectRetry)).result with
          | some (some err) => some (some (GoError.wrap "发送Kafka消息失败" err))
          | r => r) := by
  have ho := producer_setup_options env.scramErr p hsetup
  cases hs : p.setup env.scramErr with
  | mk p1 e =>
    rw [hs] at hsetup ho
    simp only at hsetup ho
    subst hsetup
    refine ⟨KafkaMessage.mk topic 0 0 key value
      (headers.map (fun kv => Header.mk kv.1 kv.2)) env.now, ?_, ?_⟩
    · simp only [ProducerImpl.Produce, hs, Retry, retryBackOff_Reset, ho]
      split <;> rfl
    · simp only [ProducerImpl.Produce, hs, Retry, retryBackOff_Reset, ho]
      split
      · rename_i err h
        simp [h]
      · rfl

/-- What `Produce` does when every write fails: `a` is the number of the last
attempt, `s` a call of the exponential policy at which its time budget is used
up (needed only for the unlimited policy). -/
theorem produce_failing_core (env : ProduceEnv) (fuel : Nat) (p : ProducerImpl)
    (topic : String) (key value : Bytes) (headers : List (String × Bytes)) (s : Nat)
    (hsetup : (p.setup env.scramErr).2 = none)
    (hfail : ∀ i, env.write i ≠ none)
    (hstop : p.options.MaxReconnectRetry ≤ 0 → env.expNext s = none)
    (hfuel : 21 ≤ fuel) (hfuel2 : s < fuel) :
    ∃ a err, (writeCalls (p.Produce env fuel topic key value headers).2.events).length = a + 1 ∧
      env.write a = some err ∧
      (p.Produce env fuel topic key value headers).2.result
        = some (some (GoError.wrap "发送Kafka消息失败" err)) ∧
      (p.options.MaxReconnectRetry = 1 →
        a = 0 ∧ (p.Produce env fuel topic key value headers).2.events.length = 1) ∧
      (2 ≤ p.options.MaxReconnectRetry →
        a ≤ retryCount p.options.MaxReconnectRetry ∧
        ((∀ m, m < retryCount p.options.MaxReconnectRetry → env.expNext m ≠ none) →
          a = retryCount p.options.MaxReconnectRetry)) ∧
      (p.options.MaxReconnectRetry ≤ 0 →
        a ≤ s ∧ ((∀ m, m < s → env.expNext m ≠ none) → a = s)) := by
  obtain ⟨msg, hev, hres⟩ := Produce_eq_Retry env fuel p topic key value headers hsetup
  rw [hev, hres]
  have hfail1 : ∀ i, ((fun i => (ProducerEvent.write i (env.ctxErr i) msg, env.write i)) i).2
      ≠ none := fun i => hfail i
  have hev1 : ∀ i l, writeCalls
      (((fun i => (ProducerEvent.write i (env.ctxErr i) msg, env.write i)) i).1 :: l)
      = ((fun i => (ProducerEvent.write i (env.ctxErr i) msg, env.write i)) i).1
          :: writeCalls l := fun i l => rfl
  obtain ⟨f, rfl⟩ : ∃ f, fuel = f + 1 := ⟨fuel - 1, by omega⟩
  by_cases h0 : p.options.MaxReconnectRetry ≤ 0
  · obtain ⟨a, ha, hlen, hr, hexact⟩ := retryLoop_exponential _ env.expNext hfail1 hev1
      s 0 0 (f + 1) hfuel2 (by simpa using hstop h0)
    obtain ⟨err, herr⟩ := Option.ne_none_iff_exists'.mp (hfail a)
    simp only [Nat.zero_add] at hr hexact
    refine ⟨a, err, ?_, herr, ?_, fun h1 => ?_, fun h2 => ?_, fun _ => ⟨ha, hexact⟩⟩
    · simpa [retryBackOff, h0] using hlen
    · simp only [retryBackOff, h0, if_true, hr, herr]
    · omega
    · omega
  · by_cases h1 : p.options.MaxReconnectRetry = 1
    · obtain ⟨err, herr⟩ := Option.ne_none_iff_exists'.mp (hfail 0)
      refine ⟨0, err, ?_, herr, ?_, fun _ => ⟨rfl, ?_⟩, fun h2 => ?_, fun h3 => absurd h3 h0⟩
      · simp [retryBackOff, h1, retryLoop_stop, writeCalls]
      · simp [retryBackOff, h1, retryLoop_stop, herr]
      · simp [retryBackOff, h1, retryLoop_stop]
      · omega
    · have hcount : retryCount p.options.MaxReconnectRetry < f + 1 := by
        unfold retryCount
        split
        · omega
        · split <;> omega
      obtain ⟨a, ha, hlen, hr, hexact⟩ := retryLoop_capped _ env.expNext hfail1 hev1
        (retryCount p.options.MaxReconnectRetry) 0 0 0 (f + 1) hcount
      obtain ⟨err, herr⟩ := Option.ne_none_iff_exists'.mp (hfail a)
      simp only [Nat.zero_add] at hlen hr hexact
      refine ⟨a, err, ?_, herr, ?_, fun h2 => absurd h2 h1, fun _ => ⟨ha, hexact⟩,
        fun h3 => absurd h3 h0⟩
      · simpa [retryBackOff, h0, h1] using hlen
      · simp only [retryBackOff, h0, h1, if_false, hr, herr]

end Kafka

namespace Kafka

/-! ## Producer contracts -/

/-- C8, counterexample: with the default options (`MaxReconnectRetry = 5`) and a
write that always fails, `Produce` calls the write 6 times, not 5, before it
returns the wrapped error. -/
theorem produce_default_retry_six_writes :
    testProducer.options.MaxReconnectRetry = 5 ∧
      (writeCalls (testProducer.Produce failingEnv 100 "test-topic" [] [] []).2.events).length
        = 6 ∧
      (testProducer.Produce failingEnv 100 "test-topic" [] [] []).2.result
        = some (some (GoError.wrap "发送Kafka消息失败" (GoError.leaf "connection refused"))) := by
  decide

theorem retryCount_ranges (n : Int) :
    (n ≤ 5 → retryCount n = 5) ∧ (5 < n → n ≤ 10 → retryCount n = 10) ∧
      (10 < n → retryCount n = 20) := by
  refine ⟨fun h => ?_, fun h1 h2 => ?_, fun h => ?_⟩
  · unfold retryCount
    rw [if_pos h]
  · unfold retryCount
    rw [if_neg (by omega), if_pos h2]
  · unfold retryCount
    rw [if_neg (by omega), if_neg (by omega)]

/-- C8, amended: with `MaxReconnectRetry = N ≥ 1` and a write that always
fails, `Produce` returns a non-nil error after at least one write. For `N = 1`
it calls the write exactly once. For `N ≥ 2` it calls the write at most `K + 1`
times, where `K` is 5 for `N ≤ 5`, 10 for `5 < N ≤ 10` and 20 for `N > 10`, and
exactly `K + 1` times when the exponential policy grants a delay to each of its
first `K` calls (its time budget does not run out earlier). -/
theorem produce_always_failing_attempts (env : ProduceEnv) (fuel : Nat) (p : ProducerImpl)
    (topic : String) (key value : Bytes) (headers : List (String × Bytes))
    (hN : 1 ≤ p.options.MaxReconnectRetry)
    (hsetup : (p.setup env.scramErr).2 = none)
    (hfail : ∀ i, env.write i ≠ none)
    (hfuel : 21 ≤ fuel) :
    (∃ err, (p.Produce env fuel topic key value headers).2.result = some (some err)) ∧
      1 ≤ (writeCalls (p.Produce env fuel topic key value headers).2.events).length ∧
      (p.options.MaxReconnectRetry = 1 →
        (writeCalls (p.Produce env fuel topic key value headers).2.events).length = 1) ∧
      (2 ≤ p.options.MaxReconnectRetry → p.options.MaxReconnectRetry ≤ 5 →
        (writeCalls (p.Produce env fuel topic key value headers).2.events).length ≤ 6 ∧
        ((∀ m, m < 5 → env.expNext m ≠ none) →
          (writeCalls (p.Produce env fuel topic key value headers).2.events).length = 6)) ∧
      (5 < p.options.MaxReconnectRetry → p.options.MaxReconnectRetry ≤ 10 →
        (writeCalls (p.Produce env fuel topic key value headers).2.events).length ≤ 11 ∧
        ((∀ m, m < 10 → env.expNext m ≠ none) →
          (writeCalls (p.Produce env fuel topic key value headers).2.events).length = 11)) ∧
      (10 < p.options.MaxReconnectRetry →
        (writeCalls (p.Produce env fuel topic key value headers).2.events).length ≤ 21 ∧
        ((∀ m, m < 20 → env.expNext m ≠ none) →
          (writeCalls (p.Produce env fuel topic key value headers).2.events).length = 21)) ∧
      (2 ≤ p.options.MaxReconnectRetry →
        (writeCalls (p.Produce env fuel topic key value headers).2.events).length
          ≤ retryCount p.options.MaxReconnectRetry + 1 ∧
        ((∀ m, m < retryCount p.options.MaxReconnectRetry → env.expNext m ≠ none) →
          (writeCalls (p.Produce env fuel topic key value headers).2.events).length
            = retryCount p.options.MaxReconnectRetry + 1)) := by
  obtain ⟨a, err, hlen, _, hres, h1, h2, _⟩ := produce_failing_core env fuel p topic key value
    headers 0 hsetup hfail (fun h0 => absurd h0 (by omega)) hfuel (by omega)
  have hr := retryCount_ranges p.options.MaxReconnectRetry
  have hgen : 2 ≤ p.options.MaxReconnectRetry →
      (writeCalls (p.Produce env fuel topic key value headers).2.events).length
          ≤ retryCount p.options.MaxReconnectRetry + 1 ∧
        ((∀ m, m < retryCount p.options.MaxReconnectRetry → env.expNext m ≠ none) →
          (writeCalls (p.Produce env fuel topic key value headers).2.events).length
            = retryCount p.options.MaxReconnectRetry + 1) := by
    intro htwo
    refine ⟨?_, fun hall => ?_⟩
    · rw [hlen]; have := (h2 htwo).1; omega
    · rw [hlen, (h2 htwo).2 hall]
  refine ⟨⟨_, hres⟩, by omega, fun hone => ?_, fun htwo h5 => ?_, fun h5 h10 => ?_,
    fun h10 => ?_, hgen⟩
  · rw [hlen, (h1 hone).1]
  · have h := hgen htwo
    rw [hr.1 h5] at h
    exact h
  · have h := hgen (by omega)
    rw [hr.2.1 h5 h10] at h
    exact h
  · have h := hgen (by omega)
    rw [hr.2.2 h10] at h
    exact h

/-- Witness of C8 amended: `MaxReconnectRetry = 7` falls in the bucket 10 and
gives 11 writes; `MaxReconnectRetry = 3` gives 6. -/
theorem produce_always_failing_attempts_witness :
    (writeCalls ((NewProducer createTestConfig { DefaultOptions with MaxReconnectRetry := 7 }).Produce
        failingEnv 21 "test-topic" [] [] []).2.events).length = 11 ∧
      (writeCalls ((NewProducer createTestConfig { DefaultOptions with MaxReconnectRetry := 3 }).Produce
        failingEnv 21 "test-topic" [] [] []).2.events).length = 6 :=
  ⟨((produce_always_failing_attempts failingEnv 21
      (NewProducer createTestConfig { DefaultOptions with MaxReconnectRetry := 7 })
      "test-topic" [] [] [] (by decide) (by decide) (fun _ => by simp [failingEnv])
      (by decide)).2.2.2.2.1 (by decide) (by decide)).2 (fun _ _ => by simp [failingEnv]),
   ((produce_always_failing_attempts failingEnv 21
      (NewProducer createTestConfig { DefaultOptions with MaxReconnectRetry := 3 })
      "test-topic" [] [] [] (by decide) (by decide) (fun _ => by simp [failingEnv])
      (by decide)).2.2.2.1 (by decide) (by decide)).2 (fun _ _ => by simp [failingEnv])⟩

/-- C10: with `MaxReconnectRetry = 1`, `Produce` calls the write exactly once
and does not wait or retry: when the attempt succeeds it returns nil, when it
fails it returns a non-nil error wrapping the attempt's error. -/
theorem produce_single_attempt (env : ProduceEnv) (fuel : Nat) (p : ProducerImpl)
    (topic : String) (key value : Bytes) (headers : List (String × Bytes))
    (hone : p.options.MaxReconnectRetry = 1)
    (hsetup : (p.setup env.scramErr).2 = none)
    (hfuel : 1 ≤ fuel) :
    (writeCalls (p.Produce env fuel topic key value headers).2.events).length = 1 ∧
      (p.Produce env fuel topic key value headers).2.events.length = 1 ∧
      (env.write 0 = none →
        (p.Produce env fuel topic key value headers).2.result = some none) ∧
      (∀ err, env.write 0 = some err →
        (p.Produce env fuel topic key value headers).2.result
          = some (some (GoError.wrap "发送Kafka消息失败" err))) := by
  obtain ⟨msg, hev, hres⟩ := Produce_eq_Retry env fuel p topic key value headers hsetup
  obtain ⟨f, rfl⟩ : ∃ f, fuel = f + 1 := ⟨fuel - 1, by omega⟩
  rw [hev, hres]
  refine ⟨?_, ?_, fun hok => ?_, fun err herr => ?_⟩
  · simp [retryBackOff, hone, retryLoop_stop, writeCalls]
  · simp [retryBackOff, hone, retryLoop_stop]
  · simp [retryBackOff, hone, retryLoop_stop, hok]
  · simp [retryBackOff, hone, retryLoop_stop, herr]

/-- Witness of C10: one failing write, one successful write. -/
theorem produce_single_attempt_witness :
    (writeCalls ((NewProducer createTestConfig { DefaultOptions with MaxReconnectRetry := 1 }).Produce
        failingEnv 1 "test-topic" [] [] []).2.events).length = 1 ∧
      ((NewProducer createTestConfig { DefaultOptions with MaxReconnectRetry := 1 }).Produce
        failingEnv 1 "test-topic" [] [] []).2.result
        = some (some (GoError.wrap "发送Kafka消息失败" (GoError.leaf "connection refused"))) ∧
      ((NewProducer createTestConfig { DefaultOptions with MaxReconnectRetry := 1 }).Produce
        { failingEnv with write := fun _ => none } 1 "test-topic" [] [] []).2.result
        = some none :=
  ⟨(produce_single_attempt failingEnv 1
      (NewProducer createTestConfig { DefaultOptions with MaxReconnectRetry := 1 })
      "test-topic" [] [] [] (by decide) (by decide) (by decide)).1,
   (produce_single_attempt failingEnv 1
      (NewProducer createTestConfig { DefaultOptions with MaxReconnectRetry := 1 })
      "test-topic" [] [] [] (by decide) (by decide) (by decide)).2.2.2
      (GoError.leaf "connection refused") rfl,
   (produce_single_attempt { failingEnv with write := fun _ => none } 1
      (NewProducer createTestConfig { DefaultOptions with MaxReconnectRetry := 1 })
      "test-topic" [] [] [] (by decide) (by decide) (by decide)).2.2.1 rfl⟩

end Kafka

namespace Kafka

/-! ## Retry cap, subscription, session binding, commit, SASL configuration -/

/-- C11, counterexample: for `MaxReconnectRetry = 21` the cap handed to
`backoff.WithMaxRetries` is 20, which is smaller than 21. -/
theorem retry_cap_below_request :
    retryBackOff 21 = BackOff.withMaxRetries (BackOff.exponential 0) 20 0 ∧
      (retryCount 21 : Int) < 21 := by
  decide

/-- C11, amended: for every `MaxReconnectRetry = n > 1` the policy that
`Produce` builds is `WithMaxRetries` over the exponential policy with the cap 5
for `n ≤ 5`, 10 for `5 < n ≤ 10` and 20 for every `n > 10`. So the cap is one of
5, 10 or 20, for `n ≤ 20` it is the least of these that is not smaller than `n`,
and for `n > 20` it is 20. -/
theorem retry_cap_bucket (n : Int) (hn : 1 < n) :
    (n ≤ 5 → retryBackOff n = BackOff.withMaxRetries (BackOff.exponential 0) 5 0) ∧
      (5 < n → n ≤ 10 →
        retryBackOff n = BackOff.withMaxRetries (BackOff.exponential 0) 10 0) ∧
      (10 < n → retryBackOff n = BackOff.withMaxRetries (BackOff.exponential 0) 20 0) ∧
      retryBackOff n = BackOff.withMaxRetries (BackOff.exponential 0) (retryCount n) 0 ∧
      (retryCount n = 5 ∨ retryCount n = 10 ∨ retryCount n = 20) ∧
      (n ≤ 20 → n ≤ (retryCount n : Int) ∧
        ∀ b : Nat, (b = 5 ∨ b = 10 ∨ b = 20) → n ≤ (b : Int) → retryCount n ≤ b) ∧
      (20 < n → retryCount n = 20) := by
  have hr := retryCount_ranges n
  have hb : retryBackOff n
      = BackOff.withMaxRetries (BackOff.exponential 0) (retryCount n) 0 := by
    unfold retryBackOff
    rw [if_neg (by omega), if_neg (by omega)]
  refine ⟨fun h => ?_, fun h1 h2 => ?_, fun h => ?_, hb, ?_, fun h20 => ⟨?_, ?_⟩, fun h20 => ?_⟩
  · rw [hb, hr.1 h]
  · rw [hb, hr.2.1 h1 h2]
  · rw [hb, hr.2.2 h]
  · by_cases h5 : n ≤ 5
    · exact Or.inl (hr.1 h5)
    · by_cases h10 : n ≤ 10
      · exact Or.inr (Or.inl (hr.2.1 (by omega) h10))
      · exact Or.inr (Or.inr (hr.2.2 (by omega)))
  · by_cases h5 : n ≤ 5
    · rw [hr.1 h5]; push_cast; omega
    · by_cases h10 : n ≤ 10
      · rw [hr.2.1 (by omega) h10]; push_cast; omega
      · rw [hr.2.2 (by omega)]; push_cast; omega
  · intro b hb3 hnb
    by_cases h5 : n ≤ 5
    · rw [hr.1 h5]
      rcases hb3 with h | h | h <;> omega
    · by_cases h10 : n ≤ 10
      · rw [hr.2.1 (by omega) h10]
        rcases hb3 with h | h | h <;> omega
      · rw [hr.2.2 (by omega)]
        rcases hb3 with h | h | h <;> omega
  · exact hr.2.2 (by omega)

/-- Witness of C11 amended: `n = 7` gives the cap 10, `n = 30` gives 20. -/
theorem retry_cap_bucket_witness :
    retryBackOff 7 = BackOff.withMaxRetries (BackOff.exponential 0) 10 0 ∧
      retryBackOff 3 = BackOff.withMaxRetries (BackOff.exponential 0) 5 0 ∧
      retryBackOff 30 = BackOff.withMaxRetries (BackOff.exponential 0) 20 0 ∧
      (7 : Int) ≤ (retryCount 7 : Int) ∧ retryCount 30 = 20 :=
  ⟨(retry_cap_bucket 7 (by decide)).2.1 (by decide) (by decide),
   (retry_cap_bucket 3 (by decide)).1 (by decide),
   (retry_cap_bucket 30 (by decide)).2.2.1 (by decide),
   ((retry_cap_bucket 7 (by decide)).2.2.2.2.2.1 (by decide)).1,
   (retry_cap_bucket 30 (by decide)).2.2.2.2.2.2 (by decide)⟩

/-- C12: `Subscribe` returns an error exactly when the consumer is already
connected or the argument list is empty; so before connect every non-empty
list, of one topic or of several, is accepted. -/
theorem subscribe_error_iff (c : ConsumerImpl) (topics : List String) :
    (c.Subscribe topics).2 ≠ none ↔ (c.connected = true ∨ topics = []) := by
  unfold ConsumerImpl.Subscribe
  by_cases hc : c.connected = true
  · simp [hc]
  · cases topics with
    | nil => simp [hc]
    | cons t tl => simp [hc]

/-- C13: when `Subscribe` accepts a topic list and `setup` then opens the read
session, the reader's configuration names the first topic of the list; the
configuration has a single `Topic` field, so no other topic is bound, whatever
the length of the list. -/
theorem setup_binds_first_topic (scramErr : String → String → Option GoError)
    (c : ConsumerImpl) (topics : List String)
    (hsub : (c.Subscribe topics).2 = none)
    (hsetup : ((c.Subscribe topics).1.setup scramErr).2 = none) :
    ∃ (r : Reader) (t0 : String) (rest : List String), topics = t0 :: rest ∧
      ((c.Subscribe topics).1.setup scramErr).1.reader = some r ∧
      ((c.Subscribe topics).1.setup scramErr).1.connected = true ∧
      r.config.Topic = t0 := by
  unfold ConsumerImpl.Subscribe at hsub hsetup ⊢
  by_cases hc : c.connected = true
  · simp [hc] at hsub
  · cases topics with
    | nil => simp [hc] at hsub
    | cons t0 rest =>
      simp only [hc, Bool.false_eq_true, if_false, List.length_cons, Nat.succ_ne_zero,
        Nat.add_one_ne_zero] at hsetup ⊢
      unfold ConsumerImpl.setup at hsetup ⊢
      simp only [hc, Bool.false_eq_true, if_false] at hsetup ⊢
      cases hd : saslDialer scramErr c.config with
      | error e => simp [hd] at hsetup
      | ok d => exact ⟨_, t0, rest, rfl, rfl, rfl, rfl⟩

/-- Witness of C13: the three topics of `TestConsumerSubscribe`. -/
theorem setup_binds_first_topic_witness :
    ∃ (r : Reader) (t0 : String) (rest : List String),
      ["topic1", "topic2", "topic3"] = t0 :: rest ∧
      (((NewConsumer createTestConfig DefaultOptions).Subscribe
        ["topic1", "topic2", "topic3"]).1.setup scramOk).1.reader = some r ∧
      (((NewConsumer createTestConfig DefaultOptions).Subscribe
        ["topic1", "topic2", "topic3"]).1.setup scramOk).1.connected = true ∧
      r.config.Topic = t0 :=
  setup_binds_first_topic scramOk (NewConsumer createTestConfig DefaultOptions)
    ["topic1", "topic2", "topic3"] (by decide) (by decide)

end Kafka

namespace Kafka

/-- C14: `Commit` on a consumer without a read session (the reader is nil)
returns an error and makes no driver call; on a consumer with a read session it
makes one `CommitMessages` call carrying exactly the message's topic, partition
and offset, and returns nil exactly when that call returns nil. A consumer
that `NewConsumer` made has no read session; one on which `setup` has just
connected has. -/
theorem commit_contract (c : ConsumerImpl) (msg : Message) (driverErr : Option GoError) :
    (c.reader = none →
        (c.Commit msg driverErr).1 = [] ∧ (c.Commit msg driverErr).2 ≠ none) ∧
      (c.reader ≠ none →
        (c.Commit msg driverErr).1
          = [Event.commit { Topic := msg.Topic, Partition := msg.Partition,
                            Offset := msg.Offset, Key := [], Value := [], Headers := [],
                            Time := 0 }] ∧
        ((c.Commit msg driverErr).2 = none ↔ driverErr = none)) ∧
      (∀ config options, (NewConsumer config options).reader = none) ∧
      (∀ scramErr, c.connected = false → (c.setup scramErr).2 = none →
        (c.setup scramErr).1.connected = true ∧ (c.setup scramErr).1.reader ≠ none) := by
  refine ⟨fun h => ?_, fun h => ?_, fun _ _ => rfl, fun scramErr hc hs => ?_⟩
  · simp [ConsumerImpl.Commit, h]
  · obtain ⟨r, hr⟩ := Option.ne_none_iff_exists'.mp h
    cases driverErr <;> simp [ConsumerImpl.Commit, hr]
  · unfold ConsumerImpl.setup at hs ⊢
    simp only [hc, Bool.false_eq_true, if_false] at hs ⊢
    cases ht : c.topics with
    | nil => simp [ht] at hs
    | cons t0 tl =>
      simp only [ht] at hs ⊢
      cases hd : saslDialer scramErr c.config with
      | error e => simp [hd] at hs
      | ok d => simp

/-- Witness of C14: a commit before connect, and commits after `setup` with a
driver that accepts and one that refuses. -/
theorem commit_contract_witness :
    ((NewConsumer createTestConfig DefaultOptions).Commit (toMessage (recordAt 5)) none).1 = [] ∧
      ((NewConsumer createTestConfig DefaultOptions).Commit (toMessage (recordAt 5)) none).2
        ≠ none ∧
      ((manualCommitConsumer.setup scramOk).1.Commit (toMessage (recordAt 5)) none).1
        = [Event.commit (commitTriple (recordAt 5))] ∧
      (((manualCommitConsumer.setup scramOk).1.Commit (toMessage (recordAt 5))
          (some (GoError.leaf "refused"))).2 = none ↔ some (GoError.leaf "refused") = none) ∧
      (manualCommitConsumer.setup scramOk).1.reader ≠ none :=
  ⟨((commit_contract (NewConsumer createTestConfig DefaultOptions) (toMessage (recordAt 5))
      none).1 rfl).1,
   ((commit_contract (NewConsumer createTestConfig DefaultOptions) (toMessage (recordAt 5))
      none).1 rfl).2,
   ((commit_contract (manualCommitConsumer.setup scramOk).1 (toMessage (recordAt 5))
      none).2.1 (by decide)).1,
   ((commit_contract (manualCommitConsumer.setup scramOk).1 (toMessage (recordAt 5))
      (some (GoError.leaf "refused"))).2.1 (by decide)).2,
   ((commit_contract manualCommitConsumer (toMessage (recordAt 5)) none).2.2.2 scramOk
      (by decide) (by decide)).2⟩

theorem saslDialer_unsupported (scramErr : String → String → Option GoError) (config : Config)
    (h1 : config.SecurityProtocol ≠ "") (h2 : config.SecurityProtocol ≠ "plaintext")
    (h3 : config.SASLMechanism ≠ "plain") (h4 : config.SASLMechanism ≠ "scram-sha-256")
    (h5 : config.SASLMechanism ≠ "scram-sha-512") :
    saslDialer scramErr config
      = Except.error (GoError.leaf ("不支持的SASL机制: " ++ config.SASLMechanism)) := by
  unfold saslDialer
  rw [if_pos ⟨h1, h2⟩, if_neg h3, if_neg h4, if_neg h5]

/-- C15: when the security protocol is neither empty nor `plaintext` and the
SASL mechanism is none of `plain`, `scram-sha-256`, `scram-sha-512`, `setup` of
a producer that is not connected and `setup` of a consumer that is not
connected both return an error and leave the receiver as it was: `connected`
stays false and no writer or reader is created. -/
theorem setup_rejects_unsupported_mechanism (scramErr : String → String → Option GoError)
    (config : Config) (p : ProducerImpl) (c : ConsumerImpl)
    (h1 : config.SecurityProtocol ≠ "") (h2 : config.SecurityProtocol ≠ "plaintext")
    (h3 : config.SASLMechanism ≠ "plain") (h4 : config.SASLMechanism ≠ "scram-sha-256")
    (h5 : config.SASLMechanism ≠ "scram-sha-512")
    (hp : p.config = config) (hpc : p.connected = false)
    (hc : c.config = config) (hcc : c.connected = false) :
    ((p.setup scramErr).2 ≠ none ∧ (p.setup scramErr).1 = p ∧
        (p.setup scramErr).1.connected = false ∧ (p.setup scramErr).1.writer = p.writer) ∧
      ((c.setup scramErr).2 ≠ none ∧ (c.setup scramErr).1 = c ∧
        (c.setup scramErr).1.connected = false ∧ (c.setup scramErr).1.reader = c.reader) := by
  subst hp
  have hd := saslDialer_unsupported scramErr p.config h1 h2 h3 h4 h5
  have hd2 : saslDialer scramErr c.config
      = Except.error (GoError.leaf ("不支持的SASL机制: " ++ p.config.SASLMechanism)) := by
    rw [hc]; exact hd
  constructor
  · unfold ProducerImpl.setup
    simp [hpc, hd]
  · unfold ConsumerImpl.setup
    cases ht : c.topics with
    | nil => simp [hcc]
    | cons t0 tl => simp [hcc, hd2]

/-- Witness of C15: SASL over TLS with the mechanism `gssapi`, which the
package does not support. -/
theorem setup_rejects_unsupported_mechanism_witness :
    ((NewProducer { createTestConfig with SecurityProtocol := "sasl_ssl",
                                          SASLMechanism := "gssapi" } DefaultOptions).setup
        scramOk).2 ≠ none ∧
      (((NewConsumer { createTestConfig with SecurityProtocol := "sasl_ssl",
                                             SASLMechanism := "gssapi" } DefaultOptions).Subscribe
        ["test-topic"]).1.setup scramOk).2 ≠ none :=
  have h := setup_rejects_unsupported_mechanism scramOk
    { createTestConfig with SecurityProtocol := "sasl_ssl", SASLMechanism := "gssapi" }
    (NewProducer { createTestConfig with SecurityProtocol := "sasl_ssl",
                                         SASLMechanism := "gssapi" } DefaultOptions)
    ((NewConsumer { createTestConfig with SecurityProtocol := "sasl_ssl",
                                          SASLMechanism := "gssapi" } DefaultOptions).Subscribe
        ["test-topic"]).1
    (by decide) (by decide) (by decide) (by decide) (by decide) rfl rfl rfl rfl
  ⟨h.1.1, h.2.1⟩

end Kafka

namespace Kafka

/-! ## Flush and Close -/

/-- C16, the code at the failing input: `Flush` on a connected producer with an
open write session calls the driver's `Writer.Close()` and returns nil, the
producer stays `connected` and keeps the writer, now closed; the following
`Produce` does not open a session and hands its write to the closed writer. -/
theorem flush_leaves_session_closed :
    connectedProducer.connected = true ∧
      connectedProducer.writer.map Writer.closed = some false ∧
      (connectedProducer.Flush none 0).calls = [SessionCall.writerClose] ∧
      (connectedProducer.Flush none 0).err = none ∧
      (connectedProducer.Flush none 0).state.connected = true ∧
      (connectedProducer.Flush none 0).state.writer.map Writer.closed = some true ∧
      ((connectedProducer.Flush none 0).state.Produce okEnv 1 "test-topic" [] [] []).1
        = (connectedProducer.Flush none 0).state ∧
      (writeCalls ((connectedProducer.Flush none 0).state.Produce okEnv 1 "test-topic"
        [] [] []).2.events).length = 1 := by
  decide

theorem producer_setup_connected (scramErr : String → String → Option GoError)
    (p : ProducerImpl) (h : p.connected = true) : p.setup scramErr = (p, none) := by
  simp [ProducerImpl.setup, h]

theorem Produce_state (env : ProduceEnv) (fuel : Nat) (p : ProducerImpl) (topic : String)
    (key value : Bytes) (headers : List (String × Bytes)) :
    (p.Produce env fuel topic key value headers).1 = (p.setup env.scramErr).1 := by
  unfold ProducerImpl.Produce
  cases hs : p.setup env.scramErr with
  | mk p1 e =>
    cases e with
    | some err => rfl
    | none =>
      simp only
      split <;> rfl

/-- C17: a `setup` that succeeds opens a write session exactly when the
producer is not connected. On a connected producer it changes nothing; on a
producer that is not connected it installs a writer newly made by
`kafka.NewWriter`, open, whatever writer was stored before, and sets
`connected`. So a `Produce` that follows a `Produce` leaves the producer, and
with it the session of the first call, unchanged, and the first `Produce` after
a successful `Close` of a connected producer holds a newly made open writer in
place of the closed one. -/
theorem producer_setup_opens_session_when_not_connected
    (env1 env2 : ProduceEnv) (fuel1 fuel2 : Nat) (p : ProducerImpl)
    (topic1 topic2 : String) (key1 value1 key2 value2 : Bytes)
    (headers1 headers2 : List (String × Bytes))
    (hsetup : (p.setup env1.scramErr).2 = none) :
    (p.connected = true → (p.setup env1.scramErr).1 = p) ∧
      (p.connected = false →
        (p.setup env1.scramErr).1.connected = true ∧
        ∃ config, (p.setup env1.scramErr).1.writer = some (NewWriter config) ∧
          config.Brokers = p.config.Brokers) ∧
      ((p.Produce env1 fuel1 topic1 key1 value1 headers1).1.connected = true ∧
        ((p.Produce env1 fuel1 topic1 key1 value1 headers1).1.Produce env2 fuel2 topic2 key2
            value2 headers2).1
          = (p.Produce env1 fuel1 topic1 key1 value1 headers1).1) ∧
      (p.connected = true → p.writer ≠ none →
        (p.Close none).err = none ∧
        (p.Close none).state.connected = false ∧
        (p.Close none).state.writer.map Writer.closed = some true ∧
        (((p.Close none).state.setup env2.scramErr).2 = none →
          (((p.Close none).state.Produce env2 fuel2 topic2 key2 value2 headers2).1.connected
              = true ∧
            ∃ config,
              ((p.Close none).state.Produce env2 fuel2 topic2 key2 value2 headers2).1.writer
                = some (NewWriter config)))) := by
  have hopen : ∀ (scramErr : String → String → Option GoError) (q : ProducerImpl),
      q.connected = false → (q.setup scramErr).2 = none →
      (q.setup scramErr).1.connected = true ∧
        ∃ config, (q.setup scramErr).1.writer = some (NewWriter config) ∧
          config.Brokers = q.config.Brokers := by
    intro scramErr q hq hs
    unfold ProducerImpl.setup at hs ⊢
    simp only [hq, Bool.false_eq_true, if_false] at hs ⊢
    cases hd : saslDialer scramErr q.config with
    | error e => simp [hd] at hs
    | ok d => exact ⟨rfl, _, rfl, rfl⟩
  have hconn : (p.setup env1.scramErr).1.connected = true := by
    by_cases hc : p.connected = true
    · rw [producer_setup_connected _ p hc]; exact hc
    · exact (hopen env1.scramErr p (by simpa using hc) hsetup).1
  refine ⟨fun hc => ?_, fun hc => hopen env1.scramErr p hc hsetup, ⟨?_, ?_⟩, fun hc hw => ?_⟩
  · rw [producer_setup_connected _ p hc]
  · rw [Produce_state]; exact hconn
  · rw [Produce_state, Produce_state, producer_setup_connected _ _ hconn]
  · obtain ⟨w, hw1⟩ := Option.ne_none_iff_exists'.mp hw
    have hcl : p.Close none =
        { state := { p with writer := some w.Close, connected := false },
          calls := [SessionCall.writerClose], err := none } := by
      simp [ProducerImpl.Close, hc, hw1]
    rw [hcl]
    refine ⟨rfl, rfl, rfl, fun hs => ?_⟩
    rw [Produce_state]
    obtain ⟨h1, config, h2, _⟩ := hopen env2.scramErr
      { p with writer := some w.Close, connected := false } rfl hs
    exact ⟨h1, config, h2⟩

/-- Witness of C17: the test producer is not connected, its first `Produce`
opens a session, a second one keeps it, and a `Produce` after `Close` opens a
new one. -/
theorem producer_setup_opens_session_when_not_connected_witness :
    (testProducer.setup okEnv.scramErr).1.connected = true ∧
      (connectedProducer.setup okEnv.scramErr).1 = connectedProducer ∧
      (connectedProducer.Close none).state.writer.map Writer.closed = some true ∧
      ((connectedProducer.Close none).state.Produce okEnv 1 "test-topic" [] [] []).1.connected
        = true :=
  ⟨((producer_setup_opens_session_when_not_connected okEnv okEnv 1 1 testProducer "test-topic"
      "test-topic" [] [] [] [] [] [] (by decide)).2.1 (by decide)).1,
   (producer_setup_opens_session_when_not_connected okEnv okEnv 1 1 connectedProducer
      "test-topic" "test-topic" [] [] [] [] [] [] (by decide)).1 (by decide),
   ((producer_setup_opens_session_when_not_connected okEnv okEnv 1 1 connectedProducer
      "test-topic" "test-topic" [] [] [] [] [] [] (by decide)).2.2.2 (by decide)
      (by decide)).2.2.1,
   (((producer_setup_opens_session_when_not_connected okEnv okEnv 1 1 connectedProducer
      "test-topic" "test-topic" [] [] [] [] [] [] (by decide)).2.2.2 (by decide)
      (by decide)).2.2.2 (by decide)).1⟩

end Kafka

namespace Kafka

/-- C18: `Close` of a producer that is not connected returns nil, makes no
driver call and changes nothing. Whenever a first `Close` returns nil, a second
`Close` returns nil, makes no driver call and changes nothing; for a connected
producer with a writer the first `Close` returns nil exactly when the driver's
`Writer.Close()` does, and then makes that one driver call. -/
theorem producer_close_idempotent (p : ProducerImpl) (closeErr1 closeErr2 : Option GoError) :
    (p.connected = false →
        (p.Close closeErr1).err = none ∧ (p.Close closeErr1).calls = [] ∧
        (p.Close closeErr1).state = p) ∧
      ((p.Close closeErr1).err = none →
        ((p.Close closeErr1).state.Close closeErr2).err = none ∧
        ((p.Close closeErr1).state.Close closeErr2).calls = [] ∧
        ((p.Close closeErr1).state.Close closeErr2).state = (p.Close closeErr1).state) ∧
      (p.connected = true → p.writer ≠ none →
        ((p.Close closeErr1).err = none ↔ closeErr1 = none) ∧
        (p.Close closeErr1).calls = [SessionCall.writerClose]) := by
  refine ⟨fun hc => ?_, fun h1 => ?_, fun hc hw => ?_⟩
  · simp [ProducerImpl.Close, hc]
  · by_cases hc : p.connected = true
    · cases hw : p.writer with
      | none => simp [ProducerImpl.Close, hc, hw]
      | some w =>
        cases closeErr1 with
        | some e => simp [ProducerImpl.Close, hc, hw] at h1
        | none => simp [ProducerImpl.Close, hc, hw]
    · simp [ProducerImpl.Close, hc]
  · obtain ⟨w, hw1⟩ := Option.ne_none_iff_exists'.mp hw
    cases closeErr1 <;> simp [ProducerImpl.Close, hc, hw1]

/-- Witness of C18: a producer that never connected, and the connected producer
closed twice. -/
theorem producer_close_idempotent_witness :
    (testProducer.Close none).err = none ∧ (testProducer.Close none).calls = [] ∧
      (connectedProducer.Close none).calls = [SessionCall.writerClose] ∧
      ((connectedProducer.Close none).state.Close none).err = none ∧
      ((connectedProducer.Close none).state.Close none).calls = [] :=
  ⟨((producer_close_idempotent testProducer none none).1 (by decide)).1,
   ((producer_close_idempotent testProducer none none).1 (by decide)).2.1,
   ((producer_close_idempotent connectedProducer none none).2.2 (by decide) (by decide)).2,
   ((producer_close_idempotent connectedProducer none none).2.1 (by decide)).1,
   ((producer_close_idempotent connectedProducer none none).2.1 (by decide)).2.1⟩

/-- C19: `Close` of a consumer that is not connected returns nil and does not
close a read session. Whenever a first `Close` of a connected consumer with a
reader returns nil, it has closed the read session once, and a second `Close`
returns nil and does not close it again. Every `Close` calls the stored
cancellation handle first when one is stored, and not otherwise: its calls are
the cancellation, if any, followed by at most the one `Reader.Close()`. -/
theorem consumer_close_idempotent (c : ConsumerImpl) (closeErr1 closeErr2 : Option GoError) :
    (c.connected = false →
        (c.Close closeErr1).err = none ∧ SessionCall.readerClose ∉ (c.Close closeErr1).calls) ∧
      (c.connected = true → c.reader ≠ none → (c.Close closeErr1).err = none →
        (c.Close closeErr1).calls
          = (if c.cancelFunc then [SessionCall.cancel] else []) ++ [SessionCall.readerClose] ∧
        ((c.Close closeErr1).state.Close closeErr2).err = none ∧
        SessionCall.readerClose ∉ ((c.Close closeErr1).state.Close closeErr2).calls ∧
        ((c.Close closeErr1).state.Close closeErr2).state = (c.Close closeErr1).state) ∧
      (∃ rest, (c.Close closeErr1).calls
          = (if c.cancelFunc then [SessionCall.cancel] else []) ++ rest ∧
        (rest = [] ∨ rest = [SessionCall.readerClose])) := by
  refine ⟨fun hc => ?_, fun hc hr h1 => ?_, ?_⟩
  · cases hf : c.cancelFunc <;> simp [ConsumerImpl.Close, hc, hf]
  · obtain ⟨r, hr1⟩ := Option.ne_none_iff_exists'.mp hr
    cases closeErr1 with
    | some e => simp [ConsumerImpl.Close, hc, hr1] at h1
    | none => cases hf : c.cancelFunc <;> simp [ConsumerImpl.Close, hc, hr1, hf]
  · by_cases hcond : (!c.connected || c.reader.isNone) = true
    · exact ⟨[], by simp [ConsumerImpl.Close, hcond], Or.inl rfl⟩
    · refine ⟨[SessionCall.readerClose], ?_, Or.inr rfl⟩
      cases closeErr1 <;> simp [ConsumerImpl.Close, hcond]

/-- Witness of C19: a consumer that never connected, and a consumer running
`Consume` (connected, cancellation handle stored) closed twice. -/
theorem consumer_close_idempotent_witness :
    ((NewConsumer createTestConfig DefaultOptions).Close none).err = none ∧
      ((manualCommitConsumer.Consume scramOk []).state.Close none).calls
        = [SessionCall.cancel, SessionCall.readerClose] ∧
      (((manualCommitConsumer.Consume scramOk []).state.Close none).state.Close none).err
        = none ∧
      SessionCall.readerClose ∉
        (((manualCommitConsumer.Consume scramOk []).state.Close none).state.Close none).calls :=
  ⟨((consumer_close_idempotent (NewConsumer createTestConfig DefaultOptions) none none).1
      (by decide)).1,
   ((consumer_close_idempotent (manualCommitConsumer.Consume scramOk []).state none none).2.1
      (by decide) (by decide) (by decide)).1,
   ((consumer_close_idempotent (manualCommitConsumer.Consume scramOk []).state none none).2.1
      (by decide) (by decide) (by decide)).2.1,
   ((consumer_close_idempotent (manualCommitConsumer.Consume scramOk []).state none none).2.1
      (by decide) (by decide) (by decide)).2.2.1⟩

end Kafka

namespace Kafka

/-! ## Round trip of a record -/

theorem mapSet_new_key (acc : List (String × Bytes)) (k : String) (v : Bytes)
    (h : k ∉ acc.map Prod.fst) : mapSet acc k v = acc ++ [(k, v)] := by
  induction acc with
  | nil => rfl
  | cons hd tl ih =>
    obtain ⟨k1, v1⟩ := hd
    simp only [List.map_cons, List.mem_cons, not_or] at h
    have hne : ¬ (k1 = k) := fun e => h.1 e.symm
    simp only [mapSet, hne, if_false, List.cons_append, ih h.2]

theorem foldl_mapSet_distinct_keys (l : List (String × Bytes)) :
    ∀ acc : List (String × Bytes), (l.map Prod.fst).Nodup →
      (∀ kv, kv ∈ l → kv.1 ∉ acc.map Prod.fst) →
      (l.map (fun kv => Header.mk kv.1 kv.2)).foldl
          (fun headers h => mapSet headers h.Key h.Value) acc
        = acc ++ l := by
  induction l with
  | nil => intro acc _ _; simp
  | cons hd tl ih =>
    intro acc hnd hdis
    obtain ⟨k, v⟩ := hd
    simp only [List.map_cons, List.nodup_cons] at hnd
    have hk : k ∉ acc.map Prod.fst := hdis (k, v) (List.mem_cons_self _ _)
    simp only [List.map_cons, List.foldl_cons, mapSet_new_key acc k v hk]
    rw [ih (acc ++ [(k, v)]) hnd.2]
    · simp
    · intro kv hkv
      simp only [List.map_append, List.map_cons, List.map_nil, List.mem_append,
        List.mem_singleton, not_or]
      refine ⟨hdis kv (List.mem_cons_of_mem _ hkv), fun e => hnd.1 ?_⟩
      rw [← e]
      exact List.mem_map_of_mem Prod.fst hkv

theorem retryLoop_events (op : Nat → ProducerEvent × Option GoError)
    (expNext : Nat → Option Int) : ∀ (fuel i : Nat) (b : BackOff) (e : ProducerEvent),
    e ∈ (retryLoop op expNext fuel i b).events →
      (∃ j, e = (op j).1) ∨ ∃ d, e = ProducerEvent.sleep d := by
  intro fuel
  induction fuel with
  | zero => intro i b e he; simp [retryLoop] at he
  | succ f ih =>
    intro i b e he
    simp only [retryLoop] at he
    cases hop : (op i).2 with
    | none =>
      simp only [hop, List.mem_singleton] at he
      exact Or.inl ⟨i, he⟩
    | some err =>
      simp only [hop] at he
      cases hn : b.NextBackOff expNext with
      | mk next b1 =>
        cases next with
        | none =>
          simp only [hn, List.mem_singleton] at he
          exact Or.inl ⟨i, he⟩
        | some d =>
          simp only [hn, List.mem_cons] at he
          rcases he with he | he | he
          · exact Or.inl ⟨i, he⟩
          · exact Or.inr ⟨d, he⟩
          · exact ih (i + 1) b1 e he

theorem retryLoop_first_event (op : Nat → ProducerEvent × Option GoError)
    (expNext : Nat → Option Int) (fuel i : Nat) (b : BackOff) :
    (op i).1 ∈ (retryLoop op expNext (fuel + 1) i b).events := by
  simp only [retryLoop]
  cases hop : (op i).2 with
  | none => simp
  | some err =>
    cases hn : b.NextBackOff expNext with
    | mk next b1 => cases next <;> simp

theorem Produce_events (env : ProduceEnv) (fuel : Nat) (p : ProducerImpl) (topic : String)
    (key value : Bytes) (headers : List (String × Bytes))
    (hsetup : (p.setup env.scramErr).2 = none) :
    (p.Produce env fuel topic key value headers).2.events
      = (retryLoop (fun i => (ProducerEvent.write i (env.ctxErr i)
            (KafkaMessage.mk topic 0 0 key value
              (headers.map (fun kv => Header.mk kv.1 kv.2)) env.now), env.write i))
          env.expNext fuel 0 (retryBackOff (p.setup env.scramErr).1.options.MaxReconnectRetry)
        ).events := by
  cases hs : p.setup env.scramErr with
  | mk p1 e =>
    rw [hs] at hsetup
    simp only at hsetup
    subst hsetup
    simp only [ProducerImpl.Produce, hs, Retry, retryBackOff_Reset]
    split <;> rfl

/-- C20: a record sent by `Produce` and read back by `Consume` keeps its
content. `h` is the caller's header map and `headers` the same entries in the
order in which `Produce` iterates over the map. Every write that `Produce` makes
(there is one as soon as `setup` succeeds) carries a driver message which, with
whatever partition, offset and time the broker gives it, `Consume` turns into a
message with the same topic, key and value and with a header map that has
exactly the entries of `h`, one per key; an empty or nil map comes back empty. -/
theorem produce_consume_round_trip (env : ProduceEnv) (fuel : Nat) (p : ProducerImpl)
    (topic : String) (key value : Bytes) (headers h : List (String × Bytes))
    (hmap : (h.map Prod.fst).Nodup)
    (horder : headers.Perm h)
    (hsetup : (p.setup env.scramErr).2 = none)
    (hfuel : 1 ≤ fuel) :
    (∃ m, ProducerEvent.write 0 (env.ctxErr 0) m
        ∈ (p.Produce env fuel topic key value headers).2.events) ∧
      ∀ (i : Nat) (ctxErr : Option GoError) (m : KafkaMessage),
        ProducerEvent.write i ctxErr m ∈ (p.Produce env fuel topic key value headers).2.events →
        ∀ (partition offset time : Int),
          (toMessage { m with Partition := partition, Offset := offset, Time := time }).Topic
              = topic ∧
            (toMessage { m with Partition := partition, Offset := offset, Time := time }).Key
              = key ∧
            (toMessage { m with Partition := partition, Offset := offset, Time := time }).Value
              = value ∧
            (toMessage { m with Partition := partition, Offset := offset, Time := time }).Headers.Perm
              h ∧
            ((toMessage { m with Partition := partition, Offset := offset,
                                 Time := time }).Headers.map Prod.fst).Nodup ∧
            (∀ kv, kv ∈ (toMessage { m with Partition := partition, Offset := offset,
                                            Time := time }).Headers ↔ kv ∈ h) ∧
            (h = [] → (toMessage { m with Partition := partition, Offset := offset,
                                          Time := time }).Headers = []) := by
  have hev := Produce_events env fuel p topic key value headers hsetup
  obtain ⟨f, rfl⟩ : ∃ f, fuel = f + 1 := ⟨fuel - 1, by omega⟩
  have hnd : (headers.map Prod.fst).Nodup := (horder.map Prod.fst).nodup_iff.mpr hmap
  have hfold := foldl_mapSet_distinct_keys headers [] hnd (fun _ _ => by simp)
  simp only [List.nil_append] at hfold
  refine ⟨⟨KafkaMessage.mk topic 0 0 key value
    (headers.map (fun kv => Header.mk kv.1 kv.2)) env.now, ?_⟩,
    fun i ctxErr m hm partition offset time => ?_⟩
  · rw [hev]
    exact retryLoop_first_event (fun i => (ProducerEvent.write i (env.ctxErr i)
      (KafkaMessage.mk topic 0 0 key value
        (headers.map (fun kv => Header.mk kv.1 kv.2)) env.now), env.write i))
      env.expNext f 0 _
  · rw [hev] at hm
    rcases retryLoop_events _ env.expNext (f + 1) 0 _ _ hm with ⟨j, hj⟩ | ⟨d, hd⟩
    · simp only [ProducerEvent.write.injEq] at hj
      obtain ⟨_, _, hmsg⟩ := hj
      subst hmsg
      have hH : (toMessage (KafkaMessage.mk topic partition offset key value
          (headers.map (fun kv => Header.mk kv.1 kv.2)) time)).Headers = headers := hfold
      have hgen : ∀ x : List (String × Bytes), x = headers →
          x.Perm h ∧ (x.map Prod.fst).Nodup ∧ (∀ kv, kv ∈ x ↔ kv ∈ h) ∧ (h = [] → x = []) := by
        intro x hx
        subst hx
        exact ⟨horder, hnd, fun kv => horder.mem_iff,
          fun hnil => by subst hnil; exact horder.eq_nil⟩
      exact ⟨rfl, rfl, rfl, hgen _ hH⟩
    · cases hd

/-- Witness of C20: the record of the spec's round trip, key `k1`, one header
`source`, sent to topic `t1` and read back at offset 42. -/
theorem produce_consume_round_trip_witness :
    (toMessage { KafkaMessage.mk "t1" 0 0 [107, 49] [123, 125] [Header.mk "source" [120]] 0 with
        Partition := 0, Offset := 42, Time := 7 }).Topic = "t1" ∧
      (toMessage { KafkaMessage.mk "t1" 0 0 [107, 49] [123, 125] [Header.mk "source" [120]] 0 with
        Partition := 0, Offset := 42, Time := 7 }).Key = [107, 49] ∧
      (toMessage { KafkaMessage.mk "t1" 0 0 [107, 49] [123, 125] [Header.mk "source" [120]] 0 with
        Partition := 0, Offset := 42, Time := 7 }).Value = [123, 125] ∧
      (toMessage { KafkaMessage.mk "t1" 0 0 [107, 49] [123, 125] [Header.mk "source" [120]] 0 with
        Partition := 0, Offset := 42, Time := 7 }).Headers.Perm [("source", [120])] :=
  have h := (produce_consume_round_trip okEnv 1 testProducer "t1" [107, 49] [123, 125]
    [("source", [120])] [("source", [120])] (by decide) (List.Perm.refl _) (by decide)
    (by decide)).2 0 none
    (KafkaMessage.mk "t1" 0 0 [107, 49] [123, 125] [Header.mk "source" [120]] 0)
    (by decide) 0 42 7
  ⟨h.1, h.2.1, h.2.2.1, h.2.2.2.1⟩

end Kafka

namespace Kafka

/-! ## Group id, connection strings, default options -/

/-- C21: `NewConsumer` stores `ClientID + "-group"` as `ConsumerGroupID` when
the given one is empty and the given one otherwise, and the reader that `setup`
opens for this consumer carries the stored group id as its `GroupID`. -/
theorem new_consumer_group_id (config : Config) (options : Options)
    (scramErr : String → String → Option GoError) (topics : List String)
    (hsub : ((NewConsumer config options).Subscribe topics).2 = none)
    (hsetup : (((NewConsumer config options).Subscribe topics).1.setup scramErr).2 = none) :
    (config.ConsumerGroupID = "" →
        (NewConsumer config options).config.ConsumerGroupID = config.ClientID ++ "-group") ∧
      (config.ConsumerGroupID ≠ "" →
        (NewConsumer config options).config.ConsumerGroupID = config.ConsumerGroupID) ∧
      ∃ r : Reader,
        (((NewConsumer config options).Subscribe topics).1.setup scramErr).1.reader = some r ∧
        r.config.GroupID = (NewConsumer config options).config.ConsumerGroupID := by
  refine ⟨fun h => by simp [NewConsumer, h], fun h => by simp [NewConsumer, h], ?_⟩
  have hconn : (NewConsumer config options).connected = false := rfl
  unfold ConsumerImpl.Subscribe at hsub hsetup ⊢
  cases topics with
  | nil => simp [hconn] at hsub
  | cons t0 rest =>
    simp only [hconn, Bool.false_eq_true, if_false, List.length_cons, Nat.succ_ne_zero,
      Nat.add_one_ne_zero] at hsetup ⊢
    unfold ConsumerImpl.setup at hsetup ⊢
    simp only [hconn, Bool.false_eq_true, if_false] at hsetup ⊢
    cases hd : saslDialer scramErr (NewConsumer config options).config with
    | error e => simp [hd] at hsetup
    | ok d => exact ⟨_, rfl, rfl⟩

/-- Witness of C21: the test configuration without a group id gets the group
`test-client-group`, and the reader is opened with it. -/
theorem new_consumer_group_id_witness :
    (NewConsumer { createTestConfig with ConsumerGroupID := "" } DefaultOptions).config.ConsumerGroupID
        = "test-client" ++ "-group" ∧
      (NewConsumer createTestConfig DefaultOptions).config.ConsumerGroupID = "test-group" ∧
      ∃ r : Reader,
        (((NewConsumer { createTestConfig with ConsumerGroupID := "" } DefaultOptions).Subscribe
          ["test-topic"]).1.setup scramOk).1.reader = some r ∧
        r.config.GroupID
          = (NewConsumer { createTestConfig with ConsumerGroupID := "" }
              DefaultOptions).config.ConsumerGroupID :=
  ⟨(new_consumer_group_id { createTestConfig with ConsumerGroupID := "" } DefaultOptions scramOk
      ["test-topic"] (by decide) (by decide)).1 rfl,
   (new_consumer_group_id createTestConfig DefaultOptions scramOk
      ["test-topic"] (by decide) (by decide)).2.1 (by decide),
   (new_consumer_group_id { createTestConfig with ConsumerGroupID := "" } DefaultOptions scramOk
      ["test-topic"] (by decide) (by decide)).2.2⟩

/-- C22: `String()` of a configuration is `DSN()` of the same configuration
with `SASLPassword` replaced by `***`, followed by ` (group=<ConsumerGroupID>)`
when the group id is not empty and by nothing otherwise; so the password has no
influence on `String()`. -/
theorem config_string_redacts_dsn (c : Config) :
    c.String
        = ({ c with SASLPassword := "***" } : Config).DSN ++
            (if c.ConsumerGroupID ≠ "" then " (group=" ++ c.ConsumerGroupID ++ ")" else "") ∧
      ∀ password : String, ({ c with SASLPassword := password } : Config).String = c.String := by
  refine ⟨?_, fun password => ?_⟩
  · unfold Config.String Config.DSN
    simp only
    split
    · split <;> simp [String.append_assoc]
    · rfl
  · unfold Config.String
    rfl

/-- C23: `DSN()` is `kafka://`, then the authentication part, then the brokers
joined by commas. The authentication part is empty when the security protocol
is empty or `plaintext`; otherwise it is the protocol and `://`, followed by
`<SASLUsername>:<SASLPassword>@` exactly when `SASLMechanism` and
`SASLUsername` are both non-empty. -/
theorem config_dsn_format (c : Config) :
    ((c.SecurityProtocol = "" ∨ c.SecurityProtocol = "plaintext") →
        c.DSN = "kafka://" ++ ",".intercalate c.Brokers) ∧
      (c.SecurityProtocol ≠ "" → c.SecurityProtocol ≠ "plaintext" →
        c.SASLMechanism ≠ "" → c.SASLUsername ≠ "" →
        c.DSN = "kafka://" ++ c.SecurityProtocol ++ "://" ++ c.SASLUsername ++ ":" ++
          c.SASLPassword ++ "@" ++ ",".intercalate c.Brokers) ∧
      (c.SecurityProtocol ≠ "" → c.SecurityProtocol ≠ "plaintext" →
        (c.SASLMechanism = "" ∨ c.SASLUsername = "") →
        c.DSN = "kafka://" ++ c.SecurityProtocol ++ "://" ++ ",".intercalate c.Brokers) := by
  refine ⟨fun h => ?_, fun h1 h2 h3 h4 => ?_, fun h1 h2 h3 => ?_⟩
  · have hn : ¬ (c.SecurityProtocol ≠ "" ∧ c.SecurityProtocol ≠ "plaintext") := by
      rintro ⟨h1, h2⟩
      rcases h with h | h
      · exact h1 h
      · exact h2 h
    unfold Config.DSN
    simp only [hn, if_false, String.append_empty]
  · unfold Config.DSN
    simp only [h1, h2, h3, h4, ne_eq, not_false_eq_true, and_self, if_true, String.append_assoc]
  · have hn : ¬ (c.SASLMechanism ≠ "" ∧ c.SASLUsername ≠ "") := by
      rintro ⟨h4, h5⟩
      rcases h3 with h | h
      · exact h4 h
      · exact h5 h
    unfold Config.DSN
    simp only [h1, h2, hn, ne_eq, not_false_eq_true, and_self, if_true, if_false,
      String.append_assoc]

/-- Witness of C23: three rows of `TestConfigDSNAndString`, and a protocol
without a user name. -/
theorem config_dsn_format_witness :
    ({ createTestConfig with Brokers := ["broker1:9093", "broker2:9093"] } : Config).DSN
        = "kafka://" ++ ",".intercalate ["broker1:9093", "broker2:9093"] ∧
      ({ createTestConfig with SecurityProtocol := "sasl_plaintext", SASLMechanism := "plain",
                               SASLUsername := "user", SASLPassword := "password" } : Config).DSN
        = "kafka://" ++ "sasl_plaintext" ++ "://" ++ "user" ++ ":" ++ "password" ++ "@" ++
            ",".intercalate ["localhost:9093"] ∧
      ({ createTestConfig with SecurityProtocol := "ssl" } : Config).DSN
        = "kafka://" ++ "ssl" ++ "://" ++ ",".intercalate ["localhost:9093"] :=
  ⟨(config_dsn_format { createTestConfig with Brokers := ["broker1:9093", "broker2:9093"] }).1
      (Or.inl rfl),
   (config_dsn_format { createTestConfig with SecurityProtocol := "sasl_plaintext",
                                              SASLMechanism := "plain", SASLUsername := "user",
                                              SASLPassword := "password" }).2.1
      (by decide) (by decide) (by decide) (by decide),
   (config_dsn_format { createTestConfig with SecurityProtocol := "ssl" }).2.2
      (by decide) (by decide) (Or.inl rfl)⟩

/-- C24: `DefaultOptions` has `Acks = -1`, `EnableIdempotent` and
`EnableAutoCommit` true, `AutoCommitInterval` of 5 seconds, and meets every
bound of `TestDefaultOptions`. -/
theorem default_options_values :
    DefaultOptions.Acks = -1 ∧ DefaultOptions.EnableIdempotent = true ∧
      DefaultOptions.EnableAutoCommit = true ∧
      DefaultOptions.AutoCommitInterval = 5 * 1000000000 ∧
      0 < DefaultOptions.ConnectTimeout ∧ 0 < DefaultOptions.SessionTimeout ∧
      0 < DefaultOptions.ReconnectBackoff ∧ 0 ≤ DefaultOptions.MaxReconnectRetry ∧
      DefaultOptions.Acks ∈ [-1, 0, 1] ∧ 0 ≤ DefaultOptions.RetryMax ∧
      0 < DefaultOptions.BatchSize ∧ 0 ≤ DefaultOptions.LingerMS ∧
      0 < DefaultOptions.MaxMessageBytes ∧
      DefaultOptions.AutoOffsetReset ∈ ["earliest", "latest"] ∧
      0 ≤ DefaultOptions.AutoCommitInterval ∧ 0 < DefaultOptions.MaxPollIntervalMS ∧
      0 ≤ DefaultOptions.FetchMaxWaitMS ∧ 0 < DefaultOptions.MaxPartitionFetchBytes := by
  decide

end Kafka

namespace Errors

/-! ## Error codes and error texts -/

/-- C25: `IsErrorCode(err, code)` is true exactly when `err` holds a non-nil
`*Error` whose `Code` is `code`; it is false for the nil interface and for every
error of another type, also for one that wraps a `*Error` with that code. (The
one value on which the call does not return is a nil `*Error` pointer held in
the interface.) -/
theorem is_error_code_iff (err : GoErr) (code : Int) :
    (IsErrorCode err code = some true ↔
        ∃ status message detail internal,
          err = GoErr.error code status message detail internal) ∧
      IsErrorCode GoErr.nil code = some false ∧
      (∀ text inner, IsErrorCode (GoErr.other text inner) code = some false) ∧
      (IsErrorCode err code = none ↔ err = GoErr.nilError) := by
  refine ⟨?_, rfl, fun _ _ => rfl, ?_⟩
  · cases err with
    | nil => simp [IsErrorCode]
    | nilError => simp [IsErrorCode]
    | other text inner => simp [IsErrorCode]
    | error c st m d i =>
      simp only [IsErrorCode, Option.some.injEq, decide_eq_true_eq, GoErr.error.injEq]
      constructor
      · intro h; exact ⟨st, m, d, i, h, rfl, rfl, rfl, rfl⟩
      · rintro ⟨_, _, _, _, h, _⟩; exact h
  · cases err <;> simp [IsErrorCode]

/-- Witness of C25: the four checks of `TestIsErrorCode`. -/
theorem is_error_code_iff_witness :
    IsErrorCode (NotFound "资源不存在") CodeNotFound = some true ∧
      IsErrorCode (NotFound "资源不存在") CodeInvalid ≠ some true ∧
      IsErrorCode (GoErr.other "普通错误" GoErr.nil) CodeNotFound = some false ∧
      IsErrorCode GoErr.nil CodeNotFound = some false :=
  ⟨(is_error_code_iff (NotFound "资源不存在") CodeNotFound).1.mpr ⟨404, "资源不存在", "", GoErr.nil, rfl⟩,
   fun h => absurd ((is_error_code_iff (NotFound "资源不存在") CodeInvalid).1.mp h)
     (by rintro ⟨_, _, _, _, h1⟩; simp [NotFound, New, CodeNotFound, CodeInvalid] at h1),
   (is_error_code_iff GoErr.nil CodeNotFound).2.2.1 "普通错误" GoErr.nil,
   (is_error_code_iff GoErr.nil CodeNotFound).2.1⟩

/-- C26: `New(code, status, message).Error()` is `[<code>] <message>` with the
code in decimal. For every non-nil `e`, `Wrap(e, code, status,
message).Error()` is `[<code>] <message>: ` followed by the text of `e` as the
verb `%v` prints it, which is what `e.Error()` returns whenever that call
returns, and `Unwrap()` of the wrapped error is `e`. -/
theorem error_text_format (code status : Int) (message : String) (e : GoErr) :
    Error.Error (New code status message) = some ("[" ++ toString code ++ "] " ++ message) ∧
      (e ≠ GoErr.nil →
        Error.Error (Wrap e code status message)
            = some ("[" ++ toString code ++ "] " ++ message ++ ": " ++ fmtV e) ∧
          Error.Unwrap (Wrap e code status message) = some e ∧
          (∀ text, Error.Error e = some text → fmtV e = text)) := by
  refine ⟨by simp [Error.Error, New], fun he => ⟨by simp [Error.Error, Wrap, he], rfl, ?_⟩⟩
  intro text ht
  cases e with
  | nil => exact absurd rfl he
  | nilError => simp [Error.Error] at ht
  | other t i =>
    simp only [Error.Error, Option.some.injEq] at ht
    simp only [fmtV, ht]
  | error c st m d i =>
    simp only [Error.Error] at ht
    simp only [fmtV]
    split at ht <;> rename_i hi
    · rw [if_pos hi]; exact Option.some.inj ht
    · rw [if_neg hi]; exact Option.some.inj ht

/-- Witness of C26: the rows of `TestErrorCreation` and `TestErrorWrapping`. -/
theorem error_text_format_witness :
    Error.Error (New 1001 400 "参数错误") = some "[1001] 参数错误" ∧
      Error.Error (Wrap (GoErr.other "原始错误" GoErr.nil) 7001 500 "包装的错误")
        = some "[7001] 包装的错误: 原始错误" ∧
      Error.Unwrap (Wrap (GoErr.other "原始错误" GoErr.nil) 7001 500 "包装的错误")
        = some (GoErr.other "原始错误" GoErr.nil) :=
  ⟨(error_text_format 1001 400 "参数错误" GoErr.nil).1,
   ((error_text_format 7001 500 "包装的错误" (GoErr.other "原始错误" GoErr.nil)).2
      (by decide)).1,
   ((error_text_format 7001 500 "包装的错误" (GoErr.other "原始错误" GoErr.nil)).2
      (by decide)).2.1⟩

end Errors

namespace Kafka

/-! ## Start offset, invariant of the consumer, postcondition of Subscribe -/

/-- C27: the reader that `setup` opens starts at the earliest offset exactly
when `AutoOffsetReset` is `earliest`; for `latest` and for every other value,
the empty string included, it starts at the latest offset. -/
theorem setup_start_offset (scramErr : String → String → Option GoError) (c : ConsumerImpl)
    (hc : c.connected = false)
    (hsetup : (c.setup scramErr).2 = none) :
    ∃ r : Reader, (c.setup scramErr).1.reader = some r ∧
      (r.config.StartOffset = StartOffset.FirstOffset ↔ c.options.AutoOffsetReset = "earliest") ∧
      (c.options.AutoOffsetReset ≠ "earliest" →
        r.config.StartOffset = StartOffset.LastOffset) := by
  unfold ConsumerImpl.setup at hsetup ⊢
  simp only [hc, Bool.false_eq_true, if_false] at hsetup ⊢
  cases ht : c.topics with
  | nil => simp [ht] at hsetup
  | cons t0 tl =>
    simp only [ht] at hsetup ⊢
    cases hd : saslDialer scramErr c.config with
    | error e => simp [hd] at hsetup
    | ok d =>
      refine ⟨_, rfl, ?_, ?_⟩
      · by_cases he : c.options.AutoOffsetReset = "earliest"
        · simp [he]
        · simp [he]
      · intro he
        simp [he]

/-- Witness of C27: `earliest`, the default `latest`, and the empty string. -/
theorem setup_start_offset_witness :
    (∃ r : Reader,
        (((NewConsumer createTestConfig
            { DefaultOptions with AutoOffsetReset := "earliest" }).Subscribe
          ["test-topic"]).1.setup scramOk).1.reader = some r ∧
        r.config.StartOffset = StartOffset.FirstOffset) ∧
      (∃ r : Reader,
        (((NewConsumer createTestConfig { DefaultOptions with AutoOffsetReset := "" }).Subscribe
          ["test-topic"]).1.setup scramOk).1.reader = some r ∧
        r.config.StartOffset = StartOffset.LastOffset) :=
  ⟨match setup_start_offset scramOk
      ((NewConsumer createTestConfig { DefaultOptions with AutoOffsetReset := "earliest" }).Subscribe
        ["test-topic"]).1 (by decide) (by decide) with
    | ⟨r, h1, h2, _⟩ => ⟨r, h1, h2.mpr (by decide)⟩,
   match setup_start_offset scramOk
      ((NewConsumer createTestConfig { DefaultOptions with AutoOffsetReset := "" }).Subscribe
        ["test-topic"]).1 (by decide) (by decide) with
    | ⟨r, h1, _, h3⟩ => ⟨r, h1, h3 (by decide)⟩⟩

end Kafka

namespace Kafka

theorem applyPauseOps_session (ops : List PauseOp) : ∀ c : ConsumerImpl,
    (applyPauseOps c ops).connected = c.connected ∧ (applyPauseOps c ops).topics = c.topics := by
  induction ops with
  | nil => intro c; exact ⟨rfl, rfl⟩
  | cons op tl ih =>
    intro c
    have h2 := ih (applyPauseOp c op)
    simp only [applyPauseOps, List.foldl_cons] at h2 ⊢
    have h1 : (applyPauseOp c op).connected = c.connected ∧ (applyPauseOp c op).topics = c.topics := by
      cases op <;> exact ⟨rfl, rfl⟩
    exact ⟨h2.1.trans h1.1, h2.2.trans h1.2⟩

theorem consumeLoop_session (l : List Iteration) : ∀ c : ConsumerImpl,
    (consumeLoop c l).state.connected = c.connected ∧ (consumeLoop c l).state.topics = c.topics := by
  induction l with
  | nil => intro c; exact ⟨rfl, rfl⟩
  | cons it rest ih =>
    intro c
    have hp := consumePass_state c it
    have hf := applyPauseOps_session it.ops c
    unfold consumeLoop
    simp only
    split
    · simp only [hp]; exact hf
    · have h2 := ih (consumePass c it).state
      rw [hp] at h2
      simp only [hp]
      exact ⟨h2.1.trans hf.1, h2.2.trans hf.2⟩

theorem setup_keeps_invariant (scramErr : String → String → Option GoError) (c : ConsumerImpl)
    (hinv : c.connected = true → c.reader ≠ none ∧ c.topics ≠ []) :
    (c.setup scramErr).1.connected = true →
      (c.setup scramErr).1.reader ≠ none ∧ (c.setup scramErr).1.topics ≠ [] := by
  unfold ConsumerImpl.setup
  by_cases hc : c.connected = true
  · simpa [hc] using hinv hc
  · simp only [hc, Bool.false_eq_true, if_false]
    cases ht : c.topics with
    | nil => simp [hc]
    | cons t0 tl =>
      simp only
      cases hd : saslDialer scramErr c.config with
      | error e => simp [hc]
      | ok d => simp [ht]

theorem call_keeps_invariant (c : ConsumerImpl) (call : ConsumerCall)
    (hinv : c.connected = true → c.reader ≠ none ∧ c.topics ≠ []) :
    (call.apply c).connected = true →
      (call.apply c).reader ≠ none ∧ (call.apply c).topics ≠ [] := by
  cases call with
  | subscribe topics =>
    simp only [ConsumerCall.apply, ConsumerImpl.Subscribe]
    by_cases hc : c.connected = true
    · simpa [hc] using hinv hc
    · cases topics with
      | nil => simp [hc]
      | cons t tl => simp [hc]
  | setup scramErr => exact setup_keeps_invariant scramErr c hinv
  | consume scramErr script =>
    have hs := setup_keeps_invariant scramErr c hinv
    simp only [ConsumerCall.apply, ConsumerImpl.Consume]
    cases hsetup : c.setup scramErr with
    | mk c1 e =>
      rw [hsetup] at hs
      cases e with
      | some err => exact hs
      | none =>
        have hf := consumeLoop_fields script { c1 with cancelFunc := true }
        have hg := consumeLoop_session script { c1 with cancelFunc := true }
        simp only
        rw [hf.1, hg.1, hg.2]
        exact hs
  | commit msg driverErr => exact hinv
  | pause topics => exact hinv
  | resume topics => exact hinv
  | close closeErr =>
    simp only [ConsumerCall.apply, ConsumerImpl.Close]
    split
    · exact hinv
    · cases closeErr with
      | some err => exact hinv
      | none => simp

/-- C28: in every state that a sequence of `Subscribe`, `setup`, `Consume`,
`Commit`, `Pause`, `Resume` and `Close` calls, each succeeding or failing,
reaches from `NewConsumer`, `connected = true` implies that the reader is not
nil and that the stored topic list is not empty. -/
theorem consumer_connected_invariant (config : Config) (options : Options)
    (calls : List ConsumerCall) :
    (runCalls (NewConsumer config options) calls).connected = true →
      (runCalls (NewConsumer config options) calls).reader ≠ none ∧
        (runCalls (NewConsumer config options) calls).topics ≠ [] := by
  have hgen : ∀ (l : List ConsumerCall) (c : ConsumerImpl),
      (c.connected = true → c.reader ≠ none ∧ c.topics ≠ []) →
      (runCalls c l).connected = true →
        (runCalls c l).reader ≠ none ∧ (runCalls c l).topics ≠ [] := by
    intro l
    induction l with
    | nil => intro c hinv; exact hinv
    | cons call tl ih =>
      intro c hinv
      simp only [runCalls, List.foldl_cons]
      exact ih (call.apply c) (call_keeps_invariant c call hinv)
  exact hgen calls _ (fun h => absurd h (by simp [NewConsumer]))

/-- Witness of C28: subscribe, a failing subscribe, a run of `Consume`, a
pause and a failing `Close` leave the consumer connected. -/
theorem consumer_connected_invariant_witness :
    (runCalls (NewConsumer createTestConfig DefaultOptions)
        [ConsumerCall.subscribe ["topic1", "topic2"], ConsumerCall.subscribe [],
         ConsumerCall.consume scramOk [fetchPass (recordAt 1) none],
         ConsumerCall.pause ["topic1"],
         ConsumerCall.close (some (GoError.leaf "busy"))]).reader ≠ none ∧
      (runCalls (NewConsumer createTestConfig DefaultOptions)
        [ConsumerCall.subscribe ["topic1", "topic2"], ConsumerCall.subscribe [],
         ConsumerCall.consume scramOk [fetchPass (recordAt 1) none],
         ConsumerCall.pause ["topic1"],
         ConsumerCall.close (some (GoError.leaf "busy"))]).topics ≠ [] :=
  consumer_connected_invariant createTestConfig DefaultOptions
    [ConsumerCall.subscribe ["topic1", "topic2"], ConsumerCall.subscribe [],
     ConsumerCall.consume scramOk [fetchPass (recordAt 1) none],
     ConsumerCall.pause ["topic1"],
     ConsumerCall.close (some (GoError.leaf "busy"))] (by decide)

/-- C29: when `Subscribe` returns nil the stored topic list is the argument
list, in order, in place of any earlier list, and nothing else has changed; when
it returns an error the consumer is unchanged, so the topic list, the paused set
and the connected flag are. -/
theorem subscribe_postcondition (c : ConsumerImpl) (topics : List String) :
    ((c.Subscribe topics).2 = none →
        (c.Subscribe topics).1.topics = topics ∧
        (c.Subscribe topics).1 = { c with topics := topics }) ∧
      ((c.Subscribe topics).2 ≠ none →
        (c.Subscribe topics).1 = c ∧
        (c.Subscribe topics).1.topics = c.topics ∧
        (c.Subscribe topics).1.pausedTopics = c.pausedTopics ∧
        (c.Subscribe topics).1.connected = c.connected) := by
  unfold ConsumerImpl.Subscribe
  by_cases hc : c.connected = true
  · simp [hc]
  · cases topics with
    | nil => simp [hc]
    | cons t tl => simp [hc]

/-- Witness of C29: the calls of `TestConsumerSubscribe`: three topics replace
the single one, and the empty call changes nothing. -/
theorem subscribe_postcondition_witness :
    ((manualCommitConsumer.Subscribe ["topic1", "topic2", "topic3"]).1.topics
        = ["topic1", "topic2", "topic3"]) ∧
      (manualCommitConsumer.Subscribe []).1 = manualCommitConsumer :=
  ⟨((subscribe_postcondition manualCommitConsumer ["topic1", "topic2", "topic3"]).1
      (by decide)).1,
   ((subscribe_postcondition manualCommitConsumer []).2 (by decide)).1⟩

end Kafka

namespace HttpClient

/-! ## Absolute and relative URLs -/

theorem isAbsoluteURL_long (u : GoString) (h : 7 < u.length) :
    isAbsoluteURL u
      = if u.take 7 = ascii "http://" then some true
        else some (decide (u.take 8 = ascii "https://")) := by
  have h7 : 7 ≤ u.length := by omega
  have h8 : 8 ≤ u.length := by omega
  simp only [isAbsoluteURL, slicePrefix, gt_iff_lt, h, h7, h8, if_true]

theorem prefix_http_iff (u : GoString) :
    (ascii "http://" <+: u ↔ u.take 7 = ascii "http://") ∧
      (ascii "https://" <+: u ↔ u.take 8 = ascii "https://") := by
  have l7 : (ascii "http://").length = 7 := by decide
  have l8 : (ascii "https://").length = 8 := by decide
  constructor
  · rw [List.prefix_iff_eq_take, l7]
    exact eq_comm
  · rw [List.prefix_iff_eq_take, l8]
    exact eq_comm

/-- C30: for every string `u`, `isAbsoluteURL(u)` returns without a slice out of
range, and it returns true exactly when `u` has at least 8 bytes and begins with
`http://` or `https://`. In `Request`, with a non-empty `BaseURL`, every other
`u` is taken as a relative path and joined to `BaseURL`, and an absolute `u` is
used as it is. -/
theorem isAbsoluteURL_spec (u baseURL : GoString) :
    (∃ b, isAbsoluteURL u = some b) ∧
      (isAbsoluteURL u = some true ↔
        8 ≤ u.length ∧ (ascii "http://" <+: u ∨ ascii "https://" <+: u)) ∧
      (baseURL ≠ [] → isAbsoluteURL u ≠ some true →
        requestURL baseURL u
          = some (trimTrailingSlash baseURL ++ [47] ++ trimLeadingSlash u)) ∧
      (isAbsoluteURL u = some true → requestURL baseURL u = some u) := by
  have hp := prefix_http_iff u
  have htotal : ∃ b, isAbsoluteURL u = some b := by
    by_cases hlen : 7 < u.length
    · rw [isAbsoluteURL_long u hlen]
      split
      · exact ⟨true, rfl⟩
      · exact ⟨_, rfl⟩
    · exact ⟨false, by simp [isAbsoluteURL, hlen]⟩
  refine ⟨htotal, ?_, fun hb hrel => ?_, fun habs => ?_⟩
  · by_cases hlen : 7 < u.length
    · rw [isAbsoluteURL_long u hlen, hp.1, hp.2]
      by_cases h7 : u.take 7 = ascii "http://"
      · simp only [h7, if_true, true_or, and_true, true_iff]
        omega
      · simp only [h7, if_false, Option.some.injEq, decide_eq_true_eq, false_or]
        constructor
        · intro h; exact ⟨by omega, h⟩
        · intro h; exact h.2
    · simp only [isAbsoluteURL, gt_iff_lt, hlen, if_false, Option.some.injEq,
        Bool.false_eq_true, false_iff, not_and]
      intro h8
      omega
  · obtain ⟨b, hb1⟩ := htotal
    cases b with
    | true => exact absurd hb1 hrel
    | false => simp [requestURL, hb, hb1]
  · by_cases hb : baseURL = []
    · simp [requestURL, hb]
    · simp [requestURL, hb, habs]

/-- Witness of C30: the four checks of `TestURLHandling`, the bare scheme
`http://`, and a relative path joined to a base URL. -/
theorem isAbsoluteURL_spec_witness :
    isAbsoluteURL (ascii "http://example.com") = some true ∧
      isAbsoluteURL (ascii "https://example.com") = some true ∧
      isAbsoluteURL (ascii "/api/v1/users") ≠ some true ∧
      isAbsoluteURL (ascii "http://") ≠ some true ∧
      requestURL (ascii "http://example.com/") (ascii "/api/v1/users")
        = some (trimTrailingSlash (ascii "http://example.com/") ++ [47] ++
            trimLeadingSlash (ascii "/api/v1/users")) :=
  ⟨(isAbsoluteURL_spec (ascii "http://example.com") []).2.1.mpr
      ⟨by decide, Or.inl (by decide)⟩,
   (isAbsoluteURL_spec (ascii "https://example.com") []).2.1.mpr
      ⟨by decide, Or.inr (by decide)⟩,
   fun h => absurd ((isAbsoluteURL_spec (ascii "/api/v1/users") []).2.1.mp h).2 (by decide),
   fun h => absurd ((isAbsoluteURL_spec (ascii "http://") []).2.1.mp h).1 (by decide),
   (isAbsoluteURL_spec (ascii "/api/v1/users") (ascii "http://example.com/")).2.2.1
      (by decide) (by decide)⟩

end HttpClient
